import Mathlib

/-!
Verification of the goelectrodb data-access layer (Go) against its
natural-language specification.

The Go sources are embedded shallowly:

* Go strings are modelled as `List Char` (`Str`); `strings.ToLower` /
  `strings.ToUpper` are modelled on the ASCII range, which the key
  material in the spec and tests exercises.
* Go maps (`map[string]...`) are modelled as association lists.  A Go
  map assignment `m[k] = v` is `setk`, which overwrites the first
  binding of `k` or appends a fresh one; `range` iteration is list
  order.  Lists representing Go maps carry the implicit Go-map
  invariant of pairwise-distinct keys where a proof needs it.
* Fallible Go functions returning `(T, error)` are modelled as
  `Except ElectroError T`.
-/

namespace GoElectroDB

/-- Go strings, modelled as lists of characters. -/
abbrev Str := List Char

/-- ASCII single-character lower-casing, modelling `strings.ToLower`. -/
def toLowerChar (c : Char) : Char :=
  if 'A' ≤ c ∧ c ≤ 'Z' then Char.ofNat (c.toNat + 32) else c

/-- ASCII single-character upper-casing, modelling `strings.ToUpper`. -/
def toUpperChar (c : Char) : Char :=
  if 'a' ≤ c ∧ c ≤ 'z' then Char.ofNat (c.toNat - 32) else c

/-- Go `strings.ToLower` on the ASCII range. -/
def goToLower (s : Str) : Str := s.map toLowerChar

/-- Go `strings.ToUpper` on the ASCII range. -/
def goToUpper (s : Str) : Str := s.map toUpperChar

/-- The ASCII digit character for `d < 10`. -/
def digitChar (d : Nat) : Char := Char.ofNat (48 + d)

/-- Digit-extraction loop for decimal rendering; the first argument is
structural fuel, always called with more fuel than digits. -/
def natCharsAux : Nat → Nat → List Char
  | 0, _ => []
  | fuel + 1, n =>
    if n < 10 then [digitChar n]
    else natCharsAux fuel (n / 10) ++ [digitChar (n % 10)]

/-- Decimal rendering of a natural number, as produced by Go's `fmt`
verbs `%d` / `%v` (`n` itself bounds the number of digits). -/
def natChars (n : Nat) : List Char := natCharsAux (n + 1) n

/-- Decimal rendering of an integer, as produced by Go's `fmt` verbs
`%d` / `%v`. -/
def intChars (i : Int) : Str :=
  if i < 0 then '-' :: natChars i.natAbs else natChars i.natAbs

/-- Go `interface{}` values supplied by callers as facet values,
attribute values and operation operands.  The claims exercise strings,
integers and booleans. -/
inductive GoVal where
  | str (s : Str)
  | num (n : Int)
  | boolean (b : Bool)
deriving DecidableEq

/-- Rendering of a `GoVal` by Go's `fmt.Sprintf("%v", value)`. -/
def fmtV : GoVal → Str
  | .str s => s
  | .num n => intChars n
  | .boolean b => if b then "true".data else "false".data

/-- Association-list lookup, modelling Go map indexing `m[k]`. -/
def lookupA {α : Type} (m : List (Str × α)) (k : Str) : Option α :=
  match m with
  | [] => none
  | (k', v) :: rest => if k' = k then some v else lookupA rest k

/-- Association-list update, modelling Go map assignment `m[k] = v`:
the first binding of `k` is overwritten, otherwise a fresh binding is
appended. -/
def setk {α : Type} (m : List (Str × α)) (k : Str) (v : α) : List (Str × α) :=
  match m with
  | [] => [(k, v)]
  | (k', v') :: rest => if k' = k then (k, v) :: rest else (k', v') :: setk rest k v

/-- Keys of an association list. -/
def keysOf {α : Type} : List (Str × α) → List Str
  | [] => []
  | (k, _) :: rest => k :: keysOf rest

/- ------------------------------------------------------------------
electrodb/internal/keys.go
------------------------------------------------------------------ -/

/-- KeyOptions of `internal/keys.go` (`Prefix`, `IsCustom`, `Casing`,
`Postfix`, `ExcludeLabelTail`, `ExcludePostfix`). -/
structure KeyOptions where
  prefixStr : Str
  isCustom : Bool
  casing : Option Str
  postfixStr : Option Str
  excludeLabelTail : Bool
  excludePostfixFlag : Bool
deriving DecidableEq

/-- FacetLabel of `internal/keys.go`. -/
structure FacetLabel where
  name : Str
  label : Str
deriving DecidableEq

/-- KeyResult of `internal/keys.go`. -/
structure KeyResult where
  key : Str
  fulfilled : Bool
deriving DecidableEq

/-- The label segment appended to the key for one facet: the raw label
when `IsCustom`, otherwise `#<label>_`. -/
def segLabel (opts : KeyOptions) (l : FacetLabel) : Str :=
  if opts.isCustom then l.label else ('#' :: l.label) ++ ['_']

/-- Value rendering inside `MakeKey`: booleans become the literals
`true` / `false`; every other value is `strings.ToLower(fmt.Sprintf("%v", value))`. -/
def renderKeyValue : GoVal → Str
  | .boolean b => if b then "true".data else "false".data
  | v => goToLower (fmtV v)

/-- The facet loop of `MakeKey`: walks the labels in order, stopping at
the first facet with no supplied value (appending that facet's label
segment first unless `ExcludeLabelTail`).  Returns the accumulated key
and the found-counter. -/
def makeKeyLoop (opts : KeyOptions) (supplied : List (Str × GoVal)) :
    List FacetLabel → Str → Nat → Str × Nat
  | [], key, found => (key, found)
  | l :: rest, key, found =>
    match lookupA supplied l.name with
    | none =>
      if opts.excludeLabelTail then (key, found)
      else (key ++ segLabel opts l, found)
    | some v => makeKeyLoop opts supplied rest (key ++ segLabel opts l ++ renderKeyValue v) (found + 1)

/-- formatKeyCasing of `internal/keys.go`. -/
def formatKeyCasing (key : Str) (casing : Str) : Str :=
  if goToLower casing = "upper".data then goToUpper key
  else if goToLower casing = "lower".data then goToLower key
  else key

/-- MakeKey of `internal/keys.go` (the boolean-formatting version the
spec was written from).  The `facets` argument is carried but unused,
exactly as in the source. -/
def MakeKey (opts : KeyOptions) (facets : List Str) (supplied : List (Str × GoVal))
    (labels : List FacetLabel) : KeyResult :=
  let r := makeKeyLoop opts supplied labels opts.prefixStr 0
  let fulfilled := r.2 == labels.length
  let key1 :=
    match opts.postfixStr with
    | some p => if fulfilled && !opts.excludePostfixFlag then r.1 ++ p else r.1
    | none => r.1
  let key2 :=
    match opts.casing with
    | some c => formatKeyCasing key1 c
    | none => key1
  { key := key2, fulfilled := fulfilled }

/-- BuildPartitionKeyPrefix of `internal/keys.go`: `$<lowercased service>`. -/
def BuildPartitionKeyPfx (service : Str) : Str := '$' :: goToLower service

/-- BuildSortKeyPrefix of `internal/keys.go`: `$<lowercased entity>_<version>`,
the version segment omitted when the version is empty (the version is
used as supplied, not lower-cased). -/
def BuildSortKeyPfx (entity version : Str) : Str :=
  let e := goToLower entity
  if version ≠ [] then ('$' :: e) ++ '_' :: version else '$' :: e

/-- BuildLabels of `internal/keys.go`: labels are the lower-cased facet
names. -/
def BuildLabels (facets : List Str) : List FacetLabel :=
  facets.map fun f => { name := f, label := goToLower f }

/- ------------------------------------------------------------------
Schema data model (electrodb/doc.go) and structured errors (utils.go)
------------------------------------------------------------------ -/

/-- ElectroError of the source: a stable code string plus a
human-readable message (the optional wrapped cause is carried as an
optional message). -/
structure ElectroError where
  code : Str
  message : Str
deriving DecidableEq

/-- NewElectroError of the source (the wrapped cause does not affect
any claim and is folded into the message). -/
def NewElectroError (code message : Str) : ElectroError :=
  { code := code, message := message }

/-- AttributeType of `doc.go`. -/
inductive AttributeType where
  | string | number | boolean | enum | any | list | map | set
deriving DecidableEq

/-- AttributeDefinition of `doc.go`, restricted to the fields the
claims' code paths read: `Type`, `Required`, `ReadOnly`, `Hidden`,
`EnumValues`, `Validate`, `Set`, `Get`, `Default`.  The hook fields are
Go closures and are modelled as optional Lean functions (`Validate`
returns an error message on rejection). -/
structure AttributeDefinition where
  typ : AttributeType := .string
  required : Bool := false
  readOnly : Bool := false
  hidden : Bool := false
  enumValues : List GoVal := []
  validate : Option (GoVal → Option Str) := none
  setF : Option (GoVal → GoVal) := none
  getF : Option (GoVal → GoVal) := none
  defaultF : Option (Unit → GoVal) := none

/-- FacetDefinition of `doc.go` (`Field`, `Facets`, `Casing`). -/
structure FacetDefinition where
  field : Str
  facets : List Str
  casing : Option Str := none

/-- IndexDefinition of `doc.go` (`Index` is the GSI name, `nil` for the
primary index). -/
structure IndexDefinition where
  index : Option Str := none
  pk : FacetDefinition
  sk : Option FacetDefinition := none

/-- TimestampsConfig referenced by `ApplyUpdateTimestamps`. -/
structure TimestampsConfig where
  createdAt : Str
  updatedAt : Str

/-- Schema of `doc.go`, restricted to the fields the claims' code
paths read.  Go's `map[string]*AttributeDefinition` and
`map[string]*IndexDefinition` are association lists. -/
structure Schema where
  service : Str
  entity : Str
  table : Str
  version : Str
  attributes : List (Str × AttributeDefinition)
  indexes : List (Str × IndexDefinition)
  timestamps : Option TimestampsConfig := none

/-- Item / Keys of the source: `map[string]interface{}`. -/
abbrev Item := List (Str × GoVal)

/- ------------------------------------------------------------------
DynamoDB attribute values (aws types.AttributeValue) — shared by the
expression compiler, the params builder and the cursor codec.
------------------------------------------------------------------ -/

/-- The aws `types.AttributeValue` sum: tagged string, numeric string,
bytes, boolean, null, string set, number set, binary set, map, list. -/
inductive AV where
  | S (v : Str)
  | N (v : Str)
  | B (v : List Nat)
  | BOOL (v : Bool)
  | NULL (v : Bool)
  | SS (v : List Str)
  | NS (v : List Str)
  | BS (v : List (List Nat))
  | M (v : List (Str × AV))
  | L (v : List AV)

/-- The `attributevalue.Marshal` result on the `GoVal` constructors
(strings marshal to `S`, integers to `N`, booleans to `BOOL`; on these
inputs the Go marshaller cannot fail). -/
def marshalAttr : GoVal → AV
  | .str s => .S s
  | .num n => .N (intChars n)
  | .boolean b => .BOOL b

/-- marshalValue of the expression builder source file.  On the `GoVal`
constructors it coincides with `attributevalue.Marshal`. -/
def marshalValue : GoVal → AV := marshalAttr

/- ------------------------------------------------------------------
Expression builder (filter/condition compiler) and table merging
------------------------------------------------------------------ -/

/-- The mutable state of an ExpressionBuilder: placeholder tables,
accumulated expression text and the two allocation counters. -/
structure ExprBuilder where
  names : List (Str × Str)
  values : List (Str × AV)
  expression : Str
  nameCount : Nat
  valueCount : Nat

/-- NewExpressionBuilder: empty tables, counters at zero.  The
attribute catalog held by the Go struct only seeds the callback's
attribute references and is not part of the mutable state. -/
def newExprBuilder : ExprBuilder :=
  { names := [], values := [], expression := [], nameCount := 0, valueCount := 0 }

/-- addName: allocates `#attr<nameCount>` and records the mapping. -/
def addName (eb : ExprBuilder) (name : Str) : ExprBuilder × Str :=
  let placeholder := "#attr".data ++ natChars eb.nameCount
  ({ eb with nameCount := eb.nameCount + 1, names := setk eb.names placeholder name },
   placeholder)

/-- addValue: allocates `:val<valueCount>` and records the marshalled
value. -/
def addValue (eb : ExprBuilder) (v : GoVal) : ExprBuilder × Str :=
  let placeholder := ":val".data ++ natChars eb.valueCount
  ({ eb with valueCount := eb.valueCount + 1, values := setk eb.values placeholder (marshalValue v) },
   placeholder)

/-- One primitive operation a filter callback can perform against the
builder (the comparison and function helpers of the source).  A Go
callback is a closure; its observable effect on the builder is the
sequence of helper invocations it makes, which this type embeds. -/
inductive FilterOp where
  | eq (attr : Str) (v : GoVal)
  | ne (attr : Str) (v : GoVal)
  | gt (attr : Str) (v : GoVal)
  | gte (attr : Str) (v : GoVal)
  | lt (attr : Str) (v : GoVal)
  | lte (attr : Str) (v : GoVal)
  | between (attr : Str) (a b : GoVal)
  | containsOp (attr : Str) (v : GoVal)
  | begins (attr : Str) (v : GoVal)
  | existsOp (attr : Str)
  | notExists (attr : Str)
  | sizeOp (attr : Str)
  | attrType (attr : Str) (typeName : Str)
deriving DecidableEq

/-- Runs one filter-callback helper against the builder, returning the
fragment the helper renders (`Eq`, `Ne`, ..., `Exists`, `Size`,
`AttributeType` of the source). -/
def applyFilterOp (eb : ExprBuilder) : FilterOp → ExprBuilder × Str
  | .eq attr v =>
    let (eb1, n) := addName eb attr
    let (eb2, val) := addValue eb1 v
    (eb2, n ++ " = ".data ++ val)
  | .ne attr v =>
    let (eb1, n) := addName eb attr
    let (eb2, val) := addValue eb1 v
    (eb2, n ++ " <> ".data ++ val)
  | .gt attr v =>
    let (eb1, n) := addName eb attr
    let (eb2, val) := addValue eb1 v
    (eb2, n ++ " > ".data ++ val)
  | .gte attr v =>
    let (eb1, n) := addName eb attr
    let (eb2, val) := addValue eb1 v
    (eb2, n ++ " >= ".data ++ val)
  | .lt attr v =>
    let (eb1, n) := addName eb attr
    let (eb2, val) := addValue eb1 v
    (eb2, n ++ " < ".data ++ val)
  | .lte attr v =>
    let (eb1, n) := addName eb attr
    let (eb2, val) := addValue eb1 v
    (eb2, n ++ " <= ".data ++ val)
  | .between attr a b =>
    let (eb1, n) := addName eb attr
    let (eb2, s) := addValue eb1 a
    let (eb3, e) := addValue eb2 b
    (eb3, ('(' :: n) ++ " BETWEEN ".data ++ s ++ " AND ".data ++ e ++ [')'])
  | .containsOp attr v =>
    let (eb1, n) := addName eb attr
    let (eb2, val) := addValue eb1 v
    (eb2, "contains(".data ++ n ++ ", ".data ++ val ++ [')'])
  | .begins attr v =>
    let (eb1, n) := addName eb attr
    let (eb2, val) := addValue eb1 v
    (eb2, "begins_with(".data ++ n ++ ", ".data ++ val ++ [')'])
  | .existsOp attr =>
    let (eb1, n) := addName eb attr
    (eb1, "attribute_exists(".data ++ n ++ [')'])
  | .notExists attr =>
    let (eb1, n) := addName eb attr
    (eb1, "attribute_not_exists(".data ++ n ++ [')'])
  | .sizeOp attr =>
    let (eb1, n) := addName eb attr
    (eb1, "size(".data ++ n ++ [')'])
  | .attrType attr typeName =>
    let (eb1, n) := addName eb attr
    let (eb2, t) := addValue eb1 (.str typeName)
    (eb2, "attribute_type(".data ++ n ++ ", ".data ++ t ++ [')'])

/-- AddExpression of the source: the first fragment is adopted as-is;
later fragments are conjoined after parenthesising the accumulated
expression (when not already parenthesised). -/
def AddExpression (eb : ExprBuilder) (expr : Str) : ExprBuilder :=
  if eb.expression = [] then { eb with expression := expr }
  else
    let wrapped :=
      if eb.expression.head? = some '(' then eb.expression
      else ('(' :: eb.expression) ++ [')']
    { eb with expression := wrapped ++ " AND (".data ++ expr ++ [')'] }

/-- Runs the helper invocations of a callback in order, collecting the
rendered fragments. -/
def runFilterOps (eb : ExprBuilder) : List FilterOp → ExprBuilder × List Str
  | [] => (eb, [])
  | op :: rest =>
    let (eb1, frag) := applyFilterOp eb op
    let (eb2, frags) := runFilterOps eb1 rest
    (eb2, frag :: frags)

/-- Separator-joined concatenation of fragments. -/
def joinSep (sep : Str) : List Str → Str
  | [] => []
  | [x] => x
  | x :: rest => x ++ sep ++ joinSep sep rest

/-- BuildWhereExpression for an embedded callback: runs the helper
invocations, then hands the string the callback returns to
`AddExpression` (the callback's own string composition is modelled as
the space-joined fragments; the placeholder tables do not depend on
that choice).  An empty result (callback performing no helper call) is
not added. -/
def buildWhere (eb : ExprBuilder) (ops : List FilterOp) : ExprBuilder :=
  let (eb1, frags) := runFilterOps eb ops
  let expr := joinSep " ".data frags
  if expr = [] then eb1 else AddExpression eb1 expr

/-- Compiles a filter callback against a fresh builder, as
`NewFilterBuilder` + `Where` does. -/
def compileCallback (ops : List FilterOp) : ExprBuilder :=
  buildWhere newExprBuilder ops

/-- Merge of one placeholder table into another, modelling the Go map
write-through loop of `MergeExpressionAttributes`. -/
def mergeAssoc {α : Type} (existing new : List (Str × α)) : List (Str × α) :=
  new.foldl (fun m kv => setk m kv.1 kv.2) existing

/-- MergeExpressionAttributes of the source: both tables of `new` are
written into `existing`, entry by entry (equal placeholder keys are
overwritten, not detected). -/
def MergeExpressionAttributes (existingNames : List (Str × Str)) (existingValues : List (Str × AV))
    (newNames : List (Str × Str)) (newValues : List (Str × AV)) :
    List (Str × Str) × List (Str × AV) :=
  (mergeAssoc existingNames newNames, mergeAssoc existingValues newValues)

/- ------------------------------------------------------------------
Validator (validation, enum checks, transforms, readonly checks)
------------------------------------------------------------------ -/

/-- validateEnum of the validator source: accepts the value iff it
equals one of the declared enum values (Go `==` on `interface{}`). -/
def validateEnum (attrName : Str) (value : GoVal) (enumValues : List GoVal) :
    Except ElectroError Unit :=
  if enumValues.contains value then .ok ()
  else .error (NewElectroError "InvalidEnumValue".data
    ("Attribute '".data ++ attrName ++ "' has invalid enum value '".data ++ fmtV value
      ++ "'".data))

/-- Per-attribute body of `ValidateAndTransformForWrite`: readonly check
(updates only), enum check, custom validation, then the Set
transform. -/
def validateWriteAttr (attrs : List (Str × AttributeDefinition)) (isUpdate : Bool)
    (name : Str) (value : GoVal) : Except ElectroError GoVal :=
  match lookupA attrs name with
  | none => .ok value
  | some attr =>
    if isUpdate && attr.readOnly then
      .error (NewElectroError "ReadOnlyViolation".data
        ("Attribute '".data ++ name ++ "' is read-only and cannot be updated".data))
    else
      let enumCheck : Except ElectroError Unit :=
        if attr.typ = .enum ∧ attr.enumValues ≠ [] then
          validateEnum name value attr.enumValues
        else .ok ()
      match enumCheck with
      | .error e => .error e
      | .ok _ =>
        let valCheck : Except ElectroError Unit :=
          match attr.validate with
          | none => .ok ()
          | some f =>
            match f value with
            | none => .ok ()
            | some msg =>
              .error (NewElectroError "ValidationError".data
                ("Validation failed for attribute '".data ++ name ++ "': ".data ++ msg))
        match valCheck with
        | .error e => .error e
        | .ok _ =>
          match attr.setF with
          | some f => .ok (f value)
          | none => .ok value

/-- ValidateAndTransformForWrite of the validator source: applied per
attribute present in the incoming item, failing fast on the first
violation.  Unknown attributes pass through unchanged. -/
def ValidateAndTransformForWrite (attrs : List (Str × AttributeDefinition))
    (item : Item) (isUpdate : Bool) : Except ElectroError Item :=
  match item with
  | [] => .ok []
  | (name, value) :: rest =>
    match validateWriteAttr attrs isUpdate name value with
    | .error e => .error e
    | .ok v =>
      match ValidateAndTransformForWrite attrs rest isUpdate with
      | .error e => .error e
      | .ok r => .ok (setk r name v)

/-- Read-only check over one map-shaped operation bucket (the SET / ADD
/ DELETE loops of `ValidateUpdateOperations`). -/
def checkReadOnlyBucket (attrs : List (Str × AttributeDefinition))
    (ops : List (Str × GoVal)) (verb : Str) : Except ElectroError Unit :=
  match ops with
  | [] => .ok ()
  | (name, _) :: rest =>
    match lookupA attrs name with
    | none => checkReadOnlyBucket attrs rest verb
    | some attr =>
      if attr.readOnly then
        .error (NewElectroError "ReadOnlyViolation".data
          ("Attribute '".data ++ name ++ "' is read-only and cannot be ".data ++ verb))
      else checkReadOnlyBucket attrs rest verb

/-- Read-only check over the REMOVE name list of
`ValidateUpdateOperations`. -/
def checkReadOnlyNames (attrs : List (Str × AttributeDefinition)) (ops : List Str) :
    Except ElectroError Unit :=
  match ops with
  | [] => .ok ()
  | name :: rest =>
    match lookupA attrs name with
    | none => checkReadOnlyNames attrs rest
    | some attr =>
      if attr.readOnly then
        .error (NewElectroError "ReadOnlyViolation".data
          ("Attribute '".data ++ name ++ "' is read-only and cannot be removed".data))
      else checkReadOnlyNames attrs rest

/-- ValidateUpdateOperations of the validator source: read-only checks
over exactly the SET, ADD, DELETE and REMOVE buckets, in that order. -/
def ValidateUpdateOperations (attrs : List (Str × AttributeDefinition))
    (setOps addOps delOps : List (Str × GoVal)) (remOps : List Str) :
    Except ElectroError Unit :=
  match checkReadOnlyBucket attrs setOps "updated".data with
  | .error e => .error e
  | .ok _ =>
    match checkReadOnlyBucket attrs addOps "updated".data with
    | .error e => .error e
    | .ok _ =>
      match checkReadOnlyBucket attrs delOps "updated".data with
      | .error e => .error e
      | .ok _ => checkReadOnlyNames attrs remOps

/-- Per-entry SET-bucket transformation of `ApplySetTransformations`:
the Set transform is applied; a failed enum check or custom validation
is swallowed and the original value silently substituted (the source
notes the error should be returned and keeps the original value "for
now"). -/
def applySetTransformEntry (attrs : List (Str × AttributeDefinition))
    (name : Str) (value : GoVal) : GoVal :=
  match lookupA attrs name with
  | none => value
  | some attr =>
    let transformed := match attr.setF with
      | some f => f value
      | none => value
    let afterEnum :=
      if attr.typ = .enum ∧ attr.enumValues ≠ [] then
        match validateEnum name transformed attr.enumValues with
        | .error _ => value
        | .ok _ => transformed
      else transformed
    match attr.validate with
    | none => afterEnum
    | some f =>
      match f afterEnum with
      | some _ => value
      | none => afterEnum

/-- ADD/DELETE-bucket transformation of `ApplySetTransformations`: only
the Set transform is applied. -/
def applyAddDelTransformEntry (attrs : List (Str × AttributeDefinition))
    (name : Str) (value : GoVal) : GoVal :=
  match lookupA attrs name with
  | none => value
  | some attr =>
    match attr.setF with
    | some f => f value
    | none => value

/-- ApplySetTransformations of the validator source: rebuilds the three
buckets entry-by-entry into fresh maps, never failing. -/
def ApplySetTransformations (attrs : List (Str × AttributeDefinition))
    (setOps addOps delOps : List (Str × GoVal)) :
    List (Str × GoVal) × List (Str × GoVal) × List (Str × GoVal) :=
  (mergeAssoc [] (setOps.map fun kv => (kv.1, applySetTransformEntry attrs kv.1 kv.2)),
   mergeAssoc [] (addOps.map fun kv => (kv.1, applyAddDelTransformEntry attrs kv.1 kv.2)),
   mergeAssoc [] (delOps.map fun kv => (kv.1, applyAddDelTransformEntry attrs kv.1 kv.2)))

/- ------------------------------------------------------------------
Cursor codec (electrodb/cursor.go)
------------------------------------------------------------------ -/

/-- A Go `interface{}` value as it stands after `json.Unmarshal`: JSON
strings, booleans, numbers, arrays, objects and null.  This is exactly
what `interfaceToAttributeValue` type-switches over (byte slices do not
survive the JSON round trip: `json.Marshal` renders them as base64
strings). -/
inductive GoJson where
  | str (s : Str)
  | boolean (b : Bool)
  | num (n : Int)
  | arr (l : List GoJson)
  | obj (m : List (Str × GoJson))
  | null

/-- One character of the standard base64 alphabet. -/
def b64Digit (n : Nat) : Char :=
  ("ABCDEFGHIJKLMNOPQRSTUVWXYZabcdefghijklmnopqrstuvwxyz0123456789+/".data).getD n 'A'

/-- Standard base64 with padding, modelling how `json.Marshal` renders
a Go byte slice. -/
def b64Encode : List Nat → Str
  | [] => []
  | [a] => [b64Digit (a / 4), b64Digit (a % 4 * 16), '=', '=']
  | [a, b] => [b64Digit (a / 4), b64Digit (a % 4 * 16 + b / 16), b64Digit (b % 16 * 4), '=']
  | a :: b :: c :: rest =>
    b64Digit (a / 4) :: b64Digit (a % 4 * 16 + b / 16) ::
      b64Digit (b % 16 * 4 + c / 64) :: b64Digit (c % 64) :: b64Encode rest

mutual

/-- attributeValueToInterface of `cursor.go` composed with the JSON
round trip: each attribute value becomes the single-entry tagged object
the decoder will see after `json.Unmarshal` (byte slices appear as
base64 strings, string slices as JSON arrays). -/
def attributeValueToInterface : AV → GoJson
  | .S v => .obj [("S".data, .str v)]
  | .N v => .obj [("N".data, .str v)]
  | .B v => .obj [("B".data, .str (b64Encode v))]
  | .BOOL v => .obj [("BOOL".data, .boolean v)]
  | .NULL v => .obj [("NULL".data, .boolean v)]
  | .SS v => .obj [("SS".data, .arr (v.map GoJson.str))]
  | .NS v => .obj [("NS".data, .arr (v.map GoJson.str))]
  | .BS v => .obj [("BS".data, .arr (v.map fun b => GoJson.str (b64Encode b)))]
  | .M kvs => .obj [("M".data, .obj (encodeMapEntries kvs))]
  | .L l => .obj [("L".data, .arr (encodeListEntries l))]

/-- The map-entry loop of `attributeValueToInterface` for `M` values. -/
def encodeMapEntries : List (Str × AV) → List (Str × GoJson)
  | [] => []
  | (k, v) :: rest => (k, attributeValueToInterface v) :: encodeMapEntries rest

/-- The list-entry loop of `attributeValueToInterface` for `L` values. -/
def encodeListEntries : List AV → List GoJson
  | [] => []
  | v :: rest => attributeValueToInterface v :: encodeListEntries rest

end

/-- A Go type assertion `m[k].(string)` on a decoded JSON object. -/
def tagStr (m : List (Str × GoJson)) (k : Str) : Option Str :=
  match lookupA m k with
  | some (.str s) => some s
  | _ => none

/-- A Go type assertion `m[k].(bool)` on a decoded JSON object. -/
def tagBool (m : List (Str × GoJson)) (k : Str) : Option Bool :=
  match lookupA m k with
  | some (.boolean b) => some b
  | _ => none

/-- A Go type assertion `m[k].([]interface{})` on a decoded JSON
object. -/
def tagArr (m : List (Str × GoJson)) (k : Str) : Option (List GoJson) :=
  match lookupA m k with
  | some (.arr l) => some l
  | _ => none

/-- A Go type assertion `m[k].(map[string]interface{})` on a decoded
JSON object. -/
def tagObj (m : List (Str × GoJson)) (k : Str) : Option (List (Str × GoJson)) :=
  match lookupA m k with
  | some (.obj o) => some o
  | _ => none

/-- The SS/NS element conversion of the decoder: a non-string element
leaves the Go zero value, the empty string. -/
def strOrEmpty : GoJson → Str
  | .str s => s
  | _ => []

theorem sizeOf_lookupA {α : Type} [SizeOf α] (m : List (Str × α)) (k : Str) (v : α)
    (h : lookupA m k = some v) : sizeOf v < sizeOf m := by
  induction m with
  | nil => simp [lookupA] at h
  | cons hd tl ih =>
    obtain ⟨k', v'⟩ := hd
    simp only [lookupA] at h
    by_cases hk : k' = k
    · simp [hk] at h
      subst h
      simp
      omega
    · simp [hk] at h
      have := ih h
      simp
      omega

theorem sizeOf_tagObj (m : List (Str × GoJson)) (k : Str) (o : List (Str × GoJson))
    (h : tagObj m k = some o) : sizeOf o < sizeOf m := by
  unfold tagObj at h
  rcases hl : lookupA m k with _ | v
  · rw [hl] at h; simp at h
  · rw [hl] at h
    have hs := sizeOf_lookupA m k v hl
    cases v <;> simp at h
    subst h
    simp at hs
    omega

theorem sizeOf_tagArr (m : List (Str × GoJson)) (k : Str) (l : List GoJson)
    (h : tagArr m k = some l) : sizeOf l < sizeOf m := by
  unfold tagArr at h
  rcases hl : lookupA m k with _ | v
  · rw [hl] at h; simp at h
  · rw [hl] at h
    have hs := sizeOf_lookupA m k v hl
    cases v <;> simp at h
    subst h
    simp at hs
    omega

mutual

/-- interfaceToAttributeValue of `cursor.go`: dispatches on the tagged
single-key object, trying the tags in source order (S, N, B, BOOL,
NULL, SS, NS, M, L).  The `m["B"].([]byte)` assertion of the source can
never succeed on a value produced by `json.Unmarshal` (bytes arrive as
base64 strings), so no `B` branch appears here. -/
def interfaceToAttributeValue (val : GoJson) : Except ElectroError AV :=
  match val with
  | .obj m =>
    match tagStr m "S".data with
    | some s => .ok (.S s)
    | none =>
      match tagStr m "N".data with
      | some n => .ok (.N n)
      | none =>
        match tagBool m "BOOL".data with
        | some b => .ok (.BOOL b)
        | none =>
          match tagBool m "NULL".data with
          | some b => .ok (.NULL b)
          | none =>
            match tagArr m "SS".data with
            | some ss => .ok (.SS (ss.map strOrEmpty))
            | none =>
              match tagArr m "NS".data with
              | some ns => .ok (.NS (ns.map strOrEmpty))
              | none =>
                match hM : tagObj m "M".data with
                | some mv =>
                  match decodeMapEntries mv with
                  | .error e => .error e
                  | .ok kvs => .ok (.M kvs)
                | none =>
                  match hL : tagArr m "L".data with
                  | some l =>
                    match decodeListEntries l with
                    | .error e => .error e
                    | .ok vs => .ok (.L vs)
                  | none =>
                    .error (NewElectroError "CursorDecodingError".data
                      "Unknown attribute value type".data)
  | _ => .error (NewElectroError "CursorDecodingError".data "Invalid cursor format".data)
termination_by sizeOf val
decreasing_by
  · have := sizeOf_tagObj m "M".data mv hM
    simp_wf
    omega
  · have := sizeOf_tagArr m "L".data l hL
    simp_wf
    omega

/-- The map-entry loop of the decoder's `M` branch, failing fast. -/
def decodeMapEntries (l : List (Str × GoJson)) : Except ElectroError (List (Str × AV)) :=
  match l with
  | [] => .ok []
  | (k, v) :: rest =>
    match interfaceToAttributeValue v with
    | .error e => .error e
    | .ok av =>
      match decodeMapEntries rest with
      | .error e => .error e
      | .ok kvs => .ok ((k, av) :: kvs)
termination_by sizeOf l
decreasing_by
  all_goals simp_wf
  all_goals omega

/-- The list-entry loop of the decoder's `L` branch, failing fast. -/
def decodeListEntries (l : List GoJson) : Except ElectroError (List AV) :=
  match l with
  | [] => .ok []
  | v :: rest =>
    match interfaceToAttributeValue v with
    | .error e => .error e
    | .ok av =>
      match decodeListEntries rest with
      | .error e => .error e
      | .ok vs => .ok (av :: vs)
termination_by sizeOf l
decreasing_by
  all_goals simp_wf
  all_goals omega

end

/-- A cursor string: either the empty string or the base64-encoded JSON
serialisation of the tagged cursor data.  JSON serialisation followed
by base64 is injective and inverted exactly by the decoder's
base64+JSON steps, so the serialised payload is carried as the tagged
object tree the decoder will recover. -/
inductive Cursor where
  | empty
  | enc (data : List (Str × GoJson))

/-- encodeCursor of `cursor.go`: a nil or empty resume point encodes to
the empty string; otherwise each attribute value becomes its tagged
object and the mapping is JSON+base64 serialised.  (On these tagged
maps `json.Marshal` cannot fail, so the source's error branch is
unreachable.) -/
def encodeCursor (lastKey : List (Str × AV)) : Cursor :=
  match lastKey with
  | [] => .empty
  | _ => .enc (lastKey.map fun kv => (kv.1, attributeValueToInterface kv.2))

/-- The decoder's loop over the unmarshalled cursor entries. -/
def decodeCursorEntries (l : List (Str × GoJson)) : Except ElectroError (List (Str × AV)) :=
  match l with
  | [] => .ok []
  | (k, v) :: rest =>
    match interfaceToAttributeValue v with
    | .error e => .error e
    | .ok av =>
      match decodeCursorEntries rest with
      | .error e => .error e
      | .ok kvs => .ok ((k, av) :: kvs)

/-- decodeCursor of `cursor.go`: the empty string decodes to the empty
(no-cursor) result without error; otherwise the base64+JSON payload is
recovered and each entry converted back to an attribute value. -/
def decodeCursor (cursor : Cursor) : Except ElectroError (List (Str × AV)) :=
  match cursor with
  | .empty => .ok []
  | .enc data => decodeCursorEntries data

/- ------------------------------------------------------------------
Params builder (electrodb/params.go)
------------------------------------------------------------------ -/

/-- findSubstring / contains of `params.go` (plain substring test). -/
def isPre : Str → Str → Bool
  | [], _ => true
  | _ :: _, [] => false
  | p :: ps, c :: cs => p == c && isPre ps cs

/-- contains of `params.go`: substring containment. -/
def containsSubstr : Str → Str → Bool
  | s, sub =>
    isPre sub s ||
      match s with
      | [] => false
      | _ :: rest => containsSubstr rest sub

/-- The primary-index search of `BuildGetItemParams`: the first index
whose GSI name is nil. -/
def findPrimaryIndex (indexes : List (Str × IndexDefinition)) : Option IndexDefinition :=
  match indexes with
  | [] => none
  | (_, idx) :: rest => if idx.index = none then some idx else findPrimaryIndex rest

/-- buildKeyWithType of `params.go`: chooses the partition- or sort-key
prefix, derives the lower-cased labels and calls `MakeKey` with the
facet definition's casing.  The Go function returns a never-non-nil
error, which the `Except` carries faithfully. -/
def buildKeyWithType (schema : Schema) (facetDef : FacetDefinition) (supplied : Item)
    (isSortKey : Bool) : Except ElectroError KeyResult :=
  let pfx :=
    if isSortKey then BuildSortKeyPfx schema.entity schema.version
    else BuildPartitionKeyPfx schema.service
  let labels := BuildLabels facetDef.facets
  let opts : KeyOptions :=
    { prefixStr := pfx, isCustom := false, casing := facetDef.casing,
      postfixStr := none, excludeLabelTail := false, excludePostfixFlag := false }
  .ok (MakeKey opts facetDef.facets supplied labels)

/-- buildKey of `params.go` (partition-key variant). -/
def buildKey (schema : Schema) (facetDef : FacetDefinition) (supplied : Item) :
    Except ElectroError KeyResult :=
  buildKeyWithType schema facetDef supplied false

/-- BuildGetItemParams of `params.go`, reduced to the key map it
produces (`TableName` and the projection option play no part in any
claim): locates the primary index, builds and checks the partition key,
then the sort key when the index has one. -/
def buildGetItemKey (schema : Schema) (keys : Item) :
    Except ElectroError (List (Str × AV)) :=
  match findPrimaryIndex schema.indexes with
  | none => .error (NewElectroError "InvalidSchema".data "No primary index found".data)
  | some primaryIndex =>
    match buildKey schema primaryIndex.pk keys with
    | .error e => .error e
    | .ok pkKey =>
      if pkKey.fulfilled then
        let keyMap := [(primaryIndex.pk.field, AV.S pkKey.key)]
        match primaryIndex.sk with
        | none => .ok keyMap
        | some skDef =>
          match buildKeyWithType schema skDef keys true with
          | .error e => .error e
          | .ok skKey =>
            if skKey.fulfilled then .ok (setk keyMap skDef.field (AV.S skKey.key))
            else .error (NewElectroError "InvalidKeys".data
              "Sort key facets not fully provided".data)
      else .error (NewElectroError "InvalidKeys".data
        "Partition key facets not fully provided".data)

/-- ApplyUpdateTimestamps of the timestamps source file: with no
timestamps configuration (or an empty updatedAt name) the SET bucket is
returned unchanged; otherwise `updatedAt` is set to the clock value
(`time.Now().Unix()`, modelled by the explicit `now` argument). -/
def ApplyUpdateTimestamps (now : Int) (setOps : List (Str × GoVal)) (schema : Schema) :
    List (Str × GoVal) :=
  match schema.timestamps with
  | none => setOps
  | some ts => if ts.updatedAt = [] then setOps else setk setOps ts.updatedAt (.num now)

/-- The accumulating state of the update-expression construction in
`BuildUpdateItemParams`: the expression text, both placeholder tables
and the shared `valueCounter`. -/
structure UpdExprState where
  expr : Str
  names : List (Str × Str)
  values : List (Str × AV)
  counter : Nat

/-- The SET loop of `BuildUpdateItemParams`: renders
`#attrN = :valN` per operation, comma-separating after the first. -/
def setLoop (ops : List (Str × GoVal)) (st : UpdExprState) (first : Bool) : UpdExprState :=
  match ops with
  | [] => st
  | (attr, v) :: rest =>
    let e0 := if first then st.expr else st.expr ++ ", ".data
    let attrName := "#attr".data ++ natChars st.counter
    let valueName := ":val".data ++ natChars st.counter
    setLoop rest
      { expr := e0 ++ attrName ++ " = ".data ++ valueName,
        names := setk st.names attrName attr,
        values := setk st.values valueName (marshalAttr v),
        counter := st.counter + 1 } false

/-- The ADD/DELETE loop of `BuildUpdateItemParams`: renders
`#attrN :valN` per operation, comma-separating after the first. -/
def addLoop (ops : List (Str × GoVal)) (st : UpdExprState) (first : Bool) : UpdExprState :=
  match ops with
  | [] => st
  | (attr, v) :: rest =>
    let e0 := if first then st.expr else st.expr ++ ", ".data
    let attrName := "#attr".data ++ natChars st.counter
    let valueName := ":val".data ++ natChars st.counter
    addLoop rest
      { expr := e0 ++ attrName ++ " ".data ++ valueName,
        names := setk st.names attrName attr,
        values := setk st.values valueName (marshalAttr v),
        counter := st.counter + 1 } false

/-- The REMOVE loop of `BuildUpdateItemParams`: renders `#attrN` per
removed attribute, comma-separating after the first (no value
placeholder). -/
def remLoop (ops : List Str) (st : UpdExprState) (first : Bool) : UpdExprState :=
  match ops with
  | [] => st
  | attr :: rest =>
    let e0 := if first then st.expr else st.expr ++ ", ".data
    let attrName := "#attr".data ++ natChars st.counter
    remLoop rest
      { expr := e0 ++ attrName,
        names := setk st.names attrName attr,
        values := st.values,
        counter := st.counter + 1 } false

/-- The APPEND loop of `BuildUpdateItemParams`: each operation opens
`SET ` when the expression is empty, inserts ` SET ` when no SET
keyword occurs yet, and otherwise appends `, ` to whatever stands at
the end of the expression; then renders
`#attrN = list_append(#attrN, :valN)`. -/
def appendLoop (ops : List (Str × GoVal)) (st : UpdExprState) : UpdExprState :=
  match ops with
  | [] => st
  | (attr, v) :: rest =>
    let e0 :=
      if st.expr = [] then "SET ".data
      else if !containsSubstr st.expr "SET".data then st.expr ++ " SET ".data
      else st.expr ++ ", ".data
    let attrName := "#attr".data ++ natChars st.counter
    let valueName := ":val".data ++ natChars st.counter
    appendLoop rest
      { expr := e0 ++ attrName ++ " = list_append(".data ++ attrName ++ ", ".data
          ++ valueName ++ [')'],
        names := setk st.names attrName attr,
        values := setk st.values valueName (marshalAttr v),
        counter := st.counter + 1 }

/-- The PREPEND loop of `BuildUpdateItemParams`: as the APPEND loop but
with the `list_append` argument order swapped. -/
def prependLoop (ops : List (Str × GoVal)) (st : UpdExprState) : UpdExprState :=
  match ops with
  | [] => st
  | (attr, v) :: rest =>
    let e0 :=
      if st.expr = [] then "SET ".data
      else if !containsSubstr st.expr "SET".data then st.expr ++ " SET ".data
      else st.expr ++ ", ".data
    let attrName := "#attr".data ++ natChars st.counter
    let valueName := ":val".data ++ natChars st.counter
    prependLoop rest
      { expr := e0 ++ attrName ++ " = list_append(".data ++ valueName ++ ", ".data
          ++ attrName ++ [')'],
        names := setk st.names attrName attr,
        values := setk st.values valueName (marshalAttr v),
        counter := st.counter + 1 }

/-- The SUBTRACT loop of `BuildUpdateItemParams`: as the APPEND loop
but rendering `#attrN = #attrN - :valN`. -/
def subtractLoop (ops : List (Str × GoVal)) (st : UpdExprState) : UpdExprState :=
  match ops with
  | [] => st
  | (attr, v) :: rest =>
    let e0 :=
      if st.expr = [] then "SET ".data
      else if !containsSubstr st.expr "SET".data then st.expr ++ " SET ".data
      else st.expr ++ ", ".data
    let attrName := "#attr".data ++ natChars st.counter
    let valueName := ":val".data ++ natChars st.counter
    subtractLoop rest
      { expr := e0 ++ attrName ++ " = ".data ++ attrName ++ " - ".data ++ valueName,
        names := setk st.names attrName attr,
        values := setk st.values valueName (marshalAttr v),
        counter := st.counter + 1 }

/-- The inner index loop of the DATA (remove-list-index) block of
`BuildUpdateItemParams`: each index renders `#attrN[i]`, opening or
extending a REMOVE clause. -/
def dataIndexLoop (attr : Str) (indices : List Int) (st : UpdExprState) : UpdExprState :=
  match indices with
  | [] => st
  | i :: rest =>
    let e0 :=
      if st.expr ≠ [] ∧ containsSubstr st.expr "REMOVE".data = false then
        st.expr ++ " REMOVE ".data
      else if containsSubstr st.expr "REMOVE".data then st.expr ++ ", ".data
      else "REMOVE ".data
    let attrName := "#attr".data ++ natChars st.counter
    dataIndexLoop attr rest
      { expr := e0 ++ attrName ++ '[' :: intChars i ++ [']'],
        names := setk st.names attrName attr,
        values := st.values,
        counter := st.counter + 1 }

/-- The outer DATA loop of `BuildUpdateItemParams`. -/
def dataLoop (ops : List (Str × List Int)) (st : UpdExprState) : UpdExprState :=
  match ops with
  | [] => st
  | (attr, indices) :: rest => dataLoop rest (dataIndexLoop attr indices st)

/-- The parameter structure `BuildUpdateItemParams` produces (the
fields a claim reads: key map, update expression, both placeholder
tables, ReturnValues). -/
structure UpdateParams where
  key : List (Str × AV)
  updateExpr : Str
  names : List (Str × Str)
  values : List (Str × AV)
  returnValues : Str

/-- The expression-construction phase of `BuildUpdateItemParams`: the
SET block (gated on a non-empty bucket, prefixed `SET `), then ADD,
DELETE and REMOVE blocks (each separated from a non-empty expression by
one space), then the APPEND, PREPEND, SUBTRACT and DATA loops. -/
def buildUpdateExpression (setOps addOps delOps : List (Str × GoVal)) (remOps : List Str)
    (appendOps prependOps subtractOps : List (Str × GoVal))
    (dataOps : List (Str × List Int)) : UpdExprState :=
  let st0 : UpdExprState := { expr := [], names := [], values := [], counter := 0 }
  let st1 :=
    if setOps ≠ [] then setLoop setOps { st0 with expr := st0.expr ++ "SET ".data } true
    else st0
  let st2 :=
    if addOps ≠ [] then
      addLoop addOps
        { st1 with expr := (if st1.expr ≠ [] then st1.expr ++ [' '] else st1.expr) ++ "ADD ".data }
        true
    else st1
  let st3 :=
    if delOps ≠ [] then
      addLoop delOps
        { st2 with expr := (if st2.expr ≠ [] then st2.expr ++ [' '] else st2.expr) ++ "DELETE ".data }
        true
    else st2
  let st4 :=
    if remOps ≠ [] then
      remLoop remOps
        { st3 with expr := (if st3.expr ≠ [] then st3.expr ++ [' '] else st3.expr) ++ "REMOVE ".data }
        true
    else st3
  let st5 := appendLoop appendOps st4
  let st6 := prependLoop prependOps st5
  let st7 := subtractLoop subtractOps st6
  dataLoop dataOps st7

/-- BuildUpdateItemParams of `params.go`: key construction via the
get-item path, update timestamps, read-only validation, the
swallowing Set-transformation pass, then the update expression.
ReturnValues defaults to ALL_NEW (no caller override appears in any
claim). -/
def buildUpdateItemParams (now : Int) (schema : Schema) (keys : Item)
    (setOps addOps delOps : List (Str × GoVal)) (remOps : List Str)
    (appendOps prependOps subtractOps : List (Str × GoVal))
    (dataOps : List (Str × List Int)) : Except ElectroError UpdateParams :=
  match buildGetItemKey schema keys with
  | .error e => .error e
  | .ok keyMap =>
    let setOps1 := ApplyUpdateTimestamps now setOps schema
    match ValidateUpdateOperations schema.attributes setOps1 addOps delOps remOps with
    | .error e => .error e
    | .ok _ =>
      let t := ApplySetTransformations schema.attributes setOps1 addOps delOps
      let st := buildUpdateExpression t.1 t.2.1 t.2.2 remOps appendOps prependOps
        subtractOps dataOps
      .ok { key := keyMap, updateExpr := st.expr, names := st.names,
            values := st.values, returnValues := "ALL_NEW".data }

/-- addKeysToItem of `params.go`: for every index the partition-key
field is attached unconditionally with the built key string, while the
sort-key field is attached only when its key is fulfilled.  Key
construction reads the original item, never the partially-augmented
result. -/
def addKeysToItemLoop (schema : Schema) (item : Item)
    (indexes : List (Str × IndexDefinition)) (result : List (Str × GoVal)) :
    Except ElectroError (List (Str × GoVal)) :=
  match indexes with
  | [] => .ok result
  | (_, idx) :: rest =>
    match buildKey schema idx.pk item with
    | .error e => .error e
    | .ok pkKey =>
      let r1 := setk result idx.pk.field (.str pkKey.key)
      match idx.sk with
      | none => addKeysToItemLoop schema item rest r1
      | some skDef =>
        match buildKeyWithType schema skDef item true with
        | .error e => .error e
        | .ok skKey =>
          if skKey.fulfilled then
            addKeysToItemLoop schema item rest (setk r1 skDef.field (.str skKey.key))
          else addKeysToItemLoop schema item rest r1

/-- addKeysToItem of `params.go` (entry point: starts from a copy of
the item). -/
def addKeysToItem (schema : Schema) (item : Item) : Except ElectroError Item :=
  addKeysToItemLoop schema item schema.indexes item

/-- A sort-key condition of `query.go` (`operation`, `values`). -/
structure SortKeyCondition where
  operation : Str
  values : List GoVal

/-- The parameter structure `BuildQueryParams` produces (the fields a
claim reads: key condition, value table, GSI name). -/
structure QueryParams where
  keyCondition : Str
  values : List (Str × AV)
  indexNameOut : Option Str

/-- The sort-key arm of `BuildQueryParams`: an explicit condition is
rendered per its operation (an unrecognised operation falls through,
adding nothing); with no explicit condition a begins_with predicate on
the entity's own sort-key prefix — extended by `#<first facet label>_`
when the index defines sort facets — is synthesised.  Go indexes
`values[0]` / `values[1]` directly (panicking on too-short input);
operand lookups are total here via head defaults, faithful whenever the
condition carries its operands. -/
def renderSortKeyCondition (schema : Schema) (skDef : FacetDefinition)
    (skCondition : Option SortKeyCondition) (keyCondition : Str)
    (values : List (Str × AV)) : Str × List (Str × AV) :=
  match skCondition with
  | some c =>
    let v0 := fmtV (c.values.getD 0 (.str []))
    let v1 := fmtV (c.values.getD 1 (.str []))
    if c.operation = "=".data then
      (keyCondition ++ " AND ".data ++ skDef.field ++ " = :sk".data,
       setk values ":sk".data (.S v0))
    else if c.operation = ">".data then
      (keyCondition ++ " AND ".data ++ skDef.field ++ " > :sk".data,
       setk values ":sk".data (.S v0))
    else if c.operation = ">=".data then
      (keyCondition ++ " AND ".data ++ skDef.field ++ " >= :sk".data,
       setk values ":sk".data (.S v0))
    else if c.operation = "<".data then
      (keyCondition ++ " AND ".data ++ skDef.field ++ " < :sk".data,
       setk values ":sk".data (.S v0))
    else if c.operation = "<=".data then
      (keyCondition ++ " AND ".data ++ skDef.field ++ " <= :sk".data,
       setk values ":sk".data (.S v0))
    else if c.operation = "BETWEEN".data then
      (keyCondition ++ " AND ".data ++ skDef.field ++ " BETWEEN :sk1 AND :sk2".data,
       setk (setk values ":sk1".data (.S v0)) ":sk2".data (.S v1))
    else if c.operation = "begins_with".data then
      (keyCondition ++ " AND begins_with(".data ++ skDef.field ++ ", :sk)".data,
       setk values ":sk".data (.S v0))
    else (keyCondition, values)
  | none =>
    let skPfx0 := BuildSortKeyPfx schema.entity schema.version
    let skPfx :=
      match skDef.facets with
      | [] => skPfx0
      | f :: _ => skPfx0 ++ ('#' :: goToLower f) ++ ['_']
    (keyCondition ++ " AND begins_with(".data ++ skDef.field ++ ", :sk)".data,
     setk values ":sk".data (.S skPfx))

/-- BuildQueryParams of `params.go`, reduced to the key condition, the
value table and the GSI name (table name, limit/order options and the
filter merge play no part in the sort-key claim): index lookup, facet
map construction by position, partition-key build and check, partition
equality condition, then the sort-key arm. -/
def buildQueryParams (schema : Schema) (indexName : Str) (pkFacets : List GoVal)
    (skCondition : Option SortKeyCondition) : Except ElectroError QueryParams :=
  match lookupA schema.indexes indexName with
  | none => .error (NewElectroError "InvalidIndex".data
      ("Index '".data ++ indexName ++ "' not found".data))
  | some index =>
    let facetsMap := mergeAssoc [] (index.pk.facets.zip pkFacets)
    match buildKey schema index.pk facetsMap with
    | .error e => .error e
    | .ok pkKey =>
      if pkKey.fulfilled then
        let keyCondition := index.pk.field ++ " = :pk".data
        let values : List (Str × AV) := [(":pk".data, .S pkKey.key)]
        let r :=
          match index.sk with
          | some skDef => renderSortKeyCondition schema skDef skCondition keyCondition values
          | none => (keyCondition, values)
        .ok { keyCondition := r.1, values := r.2, indexNameOut := index.index }
      else .error (NewElectroError "InvalidKeys".data
        "Partition key facets not fully provided".data)

/- ------------------------------------------------------------------
Derived forms used to state the theorems
------------------------------------------------------------------ -/

/-- The full key contribution of one facet: its label segment followed
by the rendered supplied value (empty when no value is supplied). -/
def facetSeg (opts : KeyOptions) (supplied : List (Str × GoVal)) (l : FacetLabel) : Str :=
  segLabel opts l ++
    match lookupA supplied l.name with
    | some v => renderKeyValue v
    | none => []

/-- Concatenated facet segments of a label list. -/
def renderSegs (opts : KeyOptions) (supplied : List (Str × GoVal)) :
    List FacetLabel → Str
  | [] => []
  | l :: rest => facetSeg opts supplied l ++ renderSegs opts supplied rest

mutual

/-- Whether an attribute value restricts to the typed shapes of claim
C8: tagged strings, numeric strings, booleans, and nested maps/lists of
those. -/
def claimOK : AV → Bool
  | .S _ => true
  | .N _ => true
  | .BOOL _ => true
  | .M kvs => claimOKPairs kvs
  | .L l => claimOKList l
  | _ => false

/-- claimOK over map entries. -/
def claimOKPairs : List (Str × AV) → Bool
  | [] => true
  | (_, v) :: rest => claimOK v && claimOKPairs rest

/-- claimOK over list entries. -/
def claimOKList : List AV → Bool
  | [] => true
  | v :: rest => claimOK v && claimOKList rest

end

/-- A representative filter callback: `attrs["a"].Eq("x")`. -/
def c1Ops : List FilterOp := [.eq "a".data (.str "x".data)]

/-- The key options `buildKeyWithType` constructs for a given prefix
and casing (canonical format, no postfix, label tail kept). -/
def defaultKeyOpts (pfx : Str) (casing : Option Str) : KeyOptions :=
  { prefixStr := pfx, isCustom := false, casing := casing,
    postfixStr := none, excludeLabelTail := false, excludePostfixFlag := false }

/-- Concatenation of a list of strings. -/
def joinAll : List Str → Str
  | [] => []
  | x :: rest => x ++ joinAll rest

/-- The canonical text of one facet segment: `#<label>_<rendered value>`
(value part empty when unsupplied). -/
def canonicalSeg (supplied : List (Str × GoVal)) (f : Str) : Str :=
  ('#' :: goToLower f) ++ '_' ::
    match lookupA supplied f with
    | some v => renderKeyValue v
    | none => []

/-- Characters that can never start an update-clause keyword: anything
but an upper-case ASCII letter. -/
def safeChar (c : Char) : Prop := c.toNat < 65 ∨ 90 < c.toNat

instance safeCharDecidable (c : Char) : Decidable (safeChar c) :=
  inferInstanceAs (Decidable (c.toNat < 65 ∨ 90 < c.toNat))

/-- Substring-occurrence count: the number of positions of `s` at which
`pat` occurs as a prefix. -/
def countSubstr : Str → Str → Nat
  | [], _ => 0
  | c :: rest, pat => (if isPre pat (c :: rest) then 1 else 0) + countSubstr rest pat

/-- The text one SET operation renders: `#attrN = :valN`. -/
def setPartText (c : Nat) : Str :=
  ("#attr".data ++ natChars c) ++ " = ".data ++ (":val".data ++ natChars c)

/-- The text one ADD/DELETE operation renders: `#attrN :valN`. -/
def addPartText (c : Nat) : Str :=
  ("#attr".data ++ natChars c) ++ " ".data ++ (":val".data ++ natChars c)

/-- The text one REMOVE operation renders: `#attrN`. -/
def remPartText (c : Nat) : Str := "#attr".data ++ natChars c

/-- The comma-separated clause body of `k` operations rendered by
`part` from counter `c` (the leading separator suppressed when `first`
is set). -/
def clauseText (part : Nat → Str) (c : Nat) : Nat → Bool → Str
  | 0, _ => []
  | k + 1, first =>
    (if first then [] else ", ".data) ++ part c ++ clauseText part (c + 1) k false

/-- Options for the C2 counterexample: the default configuration the
params builder uses (`ExcludeLabelTail` unset, no casing, no
postfix). -/
def c2Opts : KeyOptions :=
  { prefixStr := "$p".data, isCustom := false, casing := none,
    postfixStr := none, excludeLabelTail := false, excludePostfixFlag := false }

/-- The C3 counterexample schema: a mixed-case service and entity with
an `upper`-cased facet definition. -/
def c3Schema : Schema :=
  { service := "Svc".data, entity := "Ent".data, table := "t".data, version := "1".data,
    attributes := [("mall".data, {}), ("flag".data, { typ := .boolean })],
    indexes := [] }

/-- The C3 counterexample facet definition, configured with the
`upper` casing transform. -/
def c3FacetDef : FacetDefinition :=
  { field := "pk".data, facets := ["mall".data], casing := some "upper".data }

/-- The C3 boolean facet definition under `upper` casing. -/
def c3BoolFacetDef : FacetDefinition :=
  { field := "pk".data, facets := ["flag".data], casing := some "upper".data }

/-- A small concrete entity used by the update-claim witnesses and
counterexamples: service `s`, entity `e`, version `1`, a primary index
on `id`, a plain attribute `a`, an attribute `b`, a removable attribute
`r`, a list attribute `l`, a read-only list attribute `ro`, and an enum
attribute `status`. -/
def updSchema : Schema :=
  { service := "s".data, entity := "e".data, table := "t".data, version := "1".data,
    attributes :=
      [("id".data, {}), ("a".data, {}), ("b".data, {}), ("r".data, {}),
       ("l".data, { typ := AttributeType.list }),
       ("ro".data, { typ := AttributeType.list, readOnly := true }),
       ("status".data,
        { typ := AttributeType.enum,
          enumValues := [GoVal.str "active".data, GoVal.str "inactive".data] })],
    indexes := [("primary".data, { pk := { field := "pk".data, facets := ["id".data] } })] }

/-- The concrete keys used with `updSchema`. -/
def updKeys : Item := [("id".data, GoVal.str "1".data)]

/-- The key map `buildGetItemKey` produces for `updSchema` /
`updKeys`. -/
def updKeyMap : List (Str × AV) := [("pk".data, AV.S "$s#id_1".data)]

/-- Whether the catalog declares an attribute read-only (unknown
attributes are not). -/
def isReadOnlyAttr (attrs : List (Str × AttributeDefinition)) (name : Str) : Bool :=
  match lookupA attrs name with
  | some attr => attr.readOnly
  | none => false

/-- validateRequiredAttributes of `params.go`: every attribute marked
required must be present in the item. -/
def validateRequiredAttributes (attrs : List (Str × AttributeDefinition)) (item : Item) :
    Except ElectroError Unit :=
  match attrs with
  | [] => .ok ()
  | (name, attr) :: rest =>
    if attr.required ∧ lookupA item name = none then
      .error (NewElectroError "MissingAttribute".data
        ("Required attribute '".data ++ name ++ "' is missing".data))
    else validateRequiredAttributes rest item

/-- The key result `buildKeyWithType` wraps in `.ok`: `MakeKey` with
the chosen prefix, lower-cased labels and the facet definition's
casing. -/
def keyResultOf (schema : Schema) (fd : FacetDefinition) (item : Item)
    (isSortKey : Bool) : KeyResult :=
  MakeKey
    { prefixStr :=
        if isSortKey then BuildSortKeyPfx schema.entity schema.version
        else BuildPartitionKeyPfx schema.service,
      isCustom := false, casing := fd.casing, postfixStr := none,
      excludeLabelTail := false, excludePostfixFlag := false }
    fd.facets item (BuildLabels fd.facets)

/-- The key attributes `addKeysToItem` appends for a list of index
definitions: every index's partition-key field with its built key
string (fulfilled or not), and the sort-key field only when its key is
fulfilled. -/
def keyEntriesFor (schema : Schema) (item : Item) :
    List (Str × IndexDefinition) → List (Str × GoVal)
  | [] => []
  | (_, idx) :: rest =>
    ((idx.pk.field, GoVal.str (keyResultOf schema idx.pk item false).key) ::
      (match idx.sk with
       | some skDef =>
         if (keyResultOf schema skDef item true).fulfilled then
           [(skDef.field, GoVal.str (keyResultOf schema skDef item true).key)]
         else []
       | none => [])) ++ keyEntriesFor schema item rest

/-- The key fields an index list can write. -/
def allKeyFields : List (Str × IndexDefinition) → List Str
  | [] => []
  | (_, idx) :: rest =>
    (idx.pk.field ::
      (match idx.sk with
       | some skDef => [skDef.field]
       | none => [])) ++ allKeyFields rest

/-- The concrete entity used by the query and put-key witnesses:
service `Svc`, entity `Ent`, version `1`, a primary index with sort
facets and a GSI whose facets may be unsupplied. -/
def qrySchema : Schema :=
  { service := "Svc".data, entity := "Ent".data, table := "t".data, version := "1".data,
    attributes := [("id".data, {}), ("x".data, {}), ("g".data, {}), ("h".data, {})],
    indexes :=
      [("primary".data,
        { pk := { field := "pk".data, facets := ["id".data] },
          sk := some { field := "sk".data, facets := ["x".data] } }),
       ("byG".data,
        { index := some "gsi1".data,
          pk := { field := "gsi1pk".data, facets := ["g".data] },
          sk := some { field := "gsi1sk".data, facets := ["h".data] } })] }

/- ------------------------------------------------------------------
Association-list lemmas (Go map semantics)
------------------------------------------------------------------ -/

theorem keysOf_setk {α : Type} (m : List (Str × α)) (k : Str) (v : α)
    (h : k ∈ keysOf m) : keysOf (setk m k v) = keysOf m := by
  induction m with
  | nil => simp [keysOf] at h
  | cons hd tl ih =>
    obtain ⟨k', v'⟩ := hd
    by_cases hk : k' = k
    · simp [setk, hk, keysOf]
    · simp [keysOf] at h
      rcases h with h | h

      · exact absurd h.symm hk
      · simp [setk, hk, keysOf] at ih ⊢
        exact ih h

theorem keysOf_length {α : Type} (m : List (Str × α)) : (keysOf m).length = m.length := by
  induction m with
  | nil => simp [keysOf]
  | cons hd tl ih =>
    obtain ⟨k', v'⟩ := hd
    simp [keysOf, ih]

theorem length_setk_mem {α : Type} (m : List (Str × α)) (k : Str) (v : α)
    (h : k ∈ keysOf m) : (setk m k v).length = m.length := by
  have h1 : (keysOf (setk m k v)).length = (keysOf m).length := by
    rw [keysOf_setk m k v h]
  rw [keysOf_length, keysOf_length] at h1
  exact h1

theorem setk_not_mem {α : Type} (m : List (Str × α)) (k : Str) (v : α)
    (h : k ∉ keysOf m) : setk m k v = m ++ [(k, v)] := by
  induction m with
  | nil => simp [setk]
  | cons hd tl ih =>
    obtain ⟨k', v'⟩ := hd
    simp [keysOf] at h
    push_neg at h
    have hne : ¬k' = k := fun hh => h.1 hh.symm
    simp [setk, hne, ih h.2]

theorem mergeAssoc_cons {α : Type} (existing : List (Str × α)) (k : Str) (v : α)
    (rest : List (Str × α)) :
    mergeAssoc existing ((k, v) :: rest) = mergeAssoc (setk existing k v) rest := by
  simp [mergeAssoc, List.foldl]

theorem mergeAssoc_subset_length {α : Type} (new : List (Str × α)) :
    ∀ existing : List (Str × α), (∀ k ∈ keysOf new, k ∈ keysOf existing) →
      (mergeAssoc existing new).length = existing.length := by
  induction new with
  | nil => intro existing _; simp [mergeAssoc]
  | cons hd rest ih =>
    intro existing h
    obtain ⟨k, v⟩ := hd
    have hk : k ∈ keysOf existing := h k (by simp [keysOf])
    rw [mergeAssoc_cons]
    have hkeys := keysOf_setk existing k v hk
    have hlen := length_setk_mem existing k v hk
    rw [ih (setk existing k v) (fun k' hk' => by
      rw [hkeys]; exact h k' (by simp only [keysOf]; exact List.mem_cons_of_mem _ hk'))]
    exact hlen

theorem keysOf_append_mem {α : Type} (m1 m2 : List (Str × α)) (k : Str)
    (h : k ∈ keysOf (m1 ++ m2)) : k ∈ keysOf m1 ∨ k ∈ keysOf m2 := by
  induction m1 with
  | nil => right; simpa [keysOf] using h
  | cons hd tl ih =>
    obtain ⟨k', v'⟩ := hd
    simp only [List.cons_append, keysOf, List.mem_cons] at h ⊢
    rcases h with h | h
    · left; left; exact h
    · rcases ih h with h | h
      · left; right; exact h
      · right; exact h

theorem mergeAssoc_disjoint {α : Type} (new : List (Str × α)) :
    ∀ existing : List (Str × α), (keysOf new).Nodup →
      (∀ k ∈ keysOf new, k ∉ keysOf existing) →
      mergeAssoc existing new = existing ++ new := by
  induction new with
  | nil => intro existing _ _; simp [mergeAssoc]
  | cons hd rest ih =>
    intro existing hnd hdisj
    obtain ⟨k, v⟩ := hd
    have hk : k ∉ keysOf existing := hdisj k (by simp [keysOf])
    rw [mergeAssoc_cons, setk_not_mem existing k v hk]
    have hnd' : (keysOf rest).Nodup := by
      simp [keysOf] at hnd; exact hnd.2
    have hknotrest : k ∉ keysOf rest := by
      simp [keysOf] at hnd
      exact hnd.1
    rw [ih (existing ++ [(k, v)]) hnd' (fun k' hk' => ?_)]
    · simp
    · have hmem : k' ∈ keysOf (((k, v) :: rest) : List (Str × α)) := by
        simp only [keysOf]; exact List.mem_cons_of_mem _ hk'
      have h1 := hdisj k' hmem
      have h2 : k' ≠ k := fun hkk => hknotrest (hkk ▸ hk')
      intro hbad
      rcases keysOf_append_mem existing [(k, v)] k' hbad with hb | hb
      · exact h1 hb
      · simp [keysOf] at hb
        exact h2 hb

theorem mergeAssoc_self_length {α : Type} (m : List (Str × α)) :
    (mergeAssoc m m).length = m.length :=
  mergeAssoc_subset_length m m (fun _ h => h)

theorem mergeAssoc_disjoint_length {α : Type} (existing new : List (Str × α))
    (hnd : (keysOf new).Nodup) (hdisj : ∀ k ∈ keysOf new, k ∉ keysOf existing) :
    (mergeAssoc existing new).length = existing.length + new.length := by
  rw [mergeAssoc_disjoint new existing hnd hdisj]
  simp

/- ------------------------------------------------------------------
C1 — merging two independent compilations of one filter callback
------------------------------------------------------------------ -/

/-- Claim C1, counterexample.  Compiling the same filter callback
against two independently created expression builders yields identical
placeholder tables (both number from zero); merging them with
`MergeExpressionAttributes` overwrites the colliding keys, so the
merged name count is 1, not the sum 2 — the claim as stated is false. -/
theorem c1_counterexample :
    ((MergeExpressionAttributes (compileCallback c1Ops).names (compileCallback c1Ops).values
        (compileCallback c1Ops).names (compileCallback c1Ops).values).1.length ≠
      (compileCallback c1Ops).names.length + (compileCallback c1Ops).names.length) ∧
    ((MergeExpressionAttributes (compileCallback c1Ops).names (compileCallback c1Ops).values
        (compileCallback c1Ops).names (compileCallback c1Ops).values).2.length ≠
      (compileCallback c1Ops).values.length + (compileCallback c1Ops).values.length) := by
  constructor
  · intro h
    rw [show (MergeExpressionAttributes (compileCallback c1Ops).names (compileCallback c1Ops).values
        (compileCallback c1Ops).names (compileCallback c1Ops).values).1.length = 1 from rfl] at h
    rw [show (compileCallback c1Ops).names.length = 1 from rfl] at h
    omega
  · intro h
    rw [show (MergeExpressionAttributes (compileCallback c1Ops).names (compileCallback c1Ops).values
        (compileCallback c1Ops).names (compileCallback c1Ops).values).2.length = 1 from rfl] at h
    rw [show (compileCallback c1Ops).values.length = 1 from rfl] at h
    omega

/-- Claim C1, amended: compiling one filter callback against two
independent builders yields identical tables, so the merged
name/value counts equal the counts of a single compilation (equal
placeholder keys are overwritten, not detected); the counts equal the
sums of the two source tables exactly when the placeholder key sets
are disjoint (as they are for tables with pairwise-distinct keys whose
key sets do not meet). -/
theorem c1_merge_counts (ops : List FilterOp) :
    ((MergeExpressionAttributes (compileCallback ops).names (compileCallback ops).values
        (compileCallback ops).names (compileCallback ops).values).1.length =
      (compileCallback ops).names.length ∧
     (MergeExpressionAttributes (compileCallback ops).names (compileCallback ops).values
        (compileCallback ops).names (compileCallback ops).values).2.length =
      (compileCallback ops).values.length) ∧
    (∀ (n1 n2 : List (Str × Str)) (v1 v2 : List (Str × AV)),
      (keysOf n2).Nodup → (∀ k ∈ keysOf n2, k ∉ keysOf n1) →
      (keysOf v2).Nodup → (∀ k ∈ keysOf v2, k ∉ keysOf v1) →
      (MergeExpressionAttributes n1 v1 n2 v2).1.length = n1.length + n2.length ∧
      (MergeExpressionAttributes n1 v1 n2 v2).2.length = v1.length + v2.length) := by
  refine ⟨⟨mergeAssoc_self_length _, mergeAssoc_self_length _⟩, ?_⟩
  intro n1 n2 v1 v2 hndn hdn hndv hdv
  exact ⟨mergeAssoc_disjoint_length n1 n2 hndn hdn,
         mergeAssoc_disjoint_length v1 v2 hndv hdv⟩

/-- Witness for C1's amended theorem at the concrete callback
`attrs["a"].Eq("x")` and concrete disjoint tables. -/
theorem c1_merge_counts_witness :
    ((MergeExpressionAttributes (compileCallback c1Ops).names (compileCallback c1Ops).values
        (compileCallback c1Ops).names (compileCallback c1Ops).values).1.length =
      (compileCallback c1Ops).names.length ∧
     (MergeExpressionAttributes (compileCallback c1Ops).names (compileCallback c1Ops).values
        (compileCallback c1Ops).names (compileCallback c1Ops).values).2.length =
      (compileCallback c1Ops).values.length) ∧
    ((MergeExpressionAttributes [("#a".data, "a".data)] [(":v0".data, AV.S "x".data)]
        [("#b".data, "b".data)] [(":v1".data, AV.S "y".data)]).1.length =
      ([("#a".data, "a".data)] : List (Str × Str)).length + 1 ∧
     (MergeExpressionAttributes [("#a".data, "a".data)] [(":v0".data, AV.S "x".data)]
        [("#b".data, "b".data)] [(":v1".data, AV.S "y".data)]).2.length =
      ([(":v0".data, AV.S "x".data)] : List (Str × AV)).length + 1) := by
  refine ⟨(c1_merge_counts c1Ops).1, ?_⟩
  have h := (c1_merge_counts c1Ops).2 [("#a".data, "a".data)] [("#b".data, "b".data)]
    [(":v0".data, AV.S "x".data)] [(":v1".data, AV.S "y".data)]
    (by decide) (by decide) (by decide) (by decide)
  exact h

/- ------------------------------------------------------------------
MakeKey loop characterisations
------------------------------------------------------------------ -/

theorem makeKeyLoop_all (opts : KeyOptions) (supplied : List (Str × GoVal))
    (labels : List FacetLabel) :
    ∀ (key : Str) (found : Nat), (∀ l ∈ labels, (lookupA supplied l.name).isSome) →
      makeKeyLoop opts supplied labels key found =
        (key ++ renderSegs opts supplied labels, found + labels.length) := by
  induction labels with
  | nil => intro key found _; simp [makeKeyLoop, renderSegs]
  | cons l rest ih =>
    intro key found h
    have hl : (lookupA supplied l.name).isSome := h l (by simp)
    rcases hv : lookupA supplied l.name with _ | v
    · rw [hv] at hl; simp at hl
    · have ihh := ih (key ++ segLabel opts l ++ renderKeyValue v) (found + 1)
        (fun l' hl' => h l' (by simp [hl']))
      have hstep : makeKeyLoop opts supplied (l :: rest) key found =
          makeKeyLoop opts supplied rest (key ++ segLabel opts l ++ renderKeyValue v)
            (found + 1) := by
        simp only [makeKeyLoop]
        rw [hv]
      rw [hstep, ihh, Prod.mk.injEq]
      refine ⟨?_, ?_⟩
      · simp [renderSegs, facetSeg, hv, List.append_assoc]
      · simp
        omega

theorem makeKeyLoop_missing (opts : KeyOptions) (supplied : List (Str × GoVal))
    (L1 : List FacetLabel) (m : FacetLabel) (L2 : List FacetLabel) :
    ∀ (key : Str) (found : Nat), (∀ l ∈ L1, (lookupA supplied l.name).isSome) →
      lookupA supplied m.name = none →
      makeKeyLoop opts supplied (L1 ++ m :: L2) key found =
        (key ++ renderSegs opts supplied L1 ++
          (if opts.excludeLabelTail then [] else segLabel opts m), found + L1.length) := by
  induction L1 with
  | nil =>
    intro key found _ hm
    simp only [List.nil_append, makeKeyLoop, hm, renderSegs]
    by_cases he : opts.excludeLabelTail
    · simp [he]
    · simp [he]
  | cons l rest ih =>
    intro key found h hm
    have hl : (lookupA supplied l.name).isSome := h l (by simp)
    rcases hv : lookupA supplied l.name with _ | v
    · rw [hv] at hl; simp at hl
    · have ihh := ih (key ++ segLabel opts l ++ renderKeyValue v) (found + 1)
        (fun l' hl' => h l' (by simp [hl'])) hm
      have hstep : makeKeyLoop opts supplied ((l :: rest) ++ m :: L2) key found =
          makeKeyLoop opts supplied (rest ++ m :: L2)
            (key ++ segLabel opts l ++ renderKeyValue v) (found + 1) := by
        rw [List.cons_append]
        simp only [makeKeyLoop]
        rw [hv]
      rw [hstep, ihh, Prod.mk.injEq]
      refine ⟨?_, ?_⟩
      · simp [renderSegs, facetSeg, hv, List.append_assoc]
      · simp
        omega

/- ------------------------------------------------------------------
C2 — keys with a missing suffix of facets
------------------------------------------------------------------ -/

/-- Claim C2, counterexample.  With the default options (as used by the
params builder), labels `mall, building` and only `mall` supplied,
`MakeKey` yields `$p#mall_x#building_`: the key carries the first
missing facet's label segment and is not truncated immediately after
the last supplied facet's rendered value. -/
theorem c2_counterexample :
    MakeKey c2Opts ["mall".data, "building".data]
        [("mall".data, GoVal.str "x".data)]
        (BuildLabels ["mall".data, "building".data]) =
      { key := "$p#mall_x#building_".data, fulfilled := false } ∧
    "$p#mall_x#building_".data ≠ "$p#mall_x".data := by
  exact ⟨rfl, by decide⟩

/-- Claim C2, amended.  For a facet list in which exactly the facets of
a suffix are unsupplied and all earlier facets are supplied, `MakeKey`
(with no casing transform) returns `fulfilled = false` and a key that
is the prefix followed by the supplied facets' segments and then: cut
immediately after the last supplied facet's rendered value when
`ExcludeLabelTail` is set, or additionally carrying exactly the first
missing facet's label segment otherwise — in both cases with no
segments for the later missing facets and no postfix. -/
theorem c2_missing_tail (opts : KeyOptions) (facets : List Str)
    (supplied : List (Str × GoVal)) (L1 : List FacetLabel) (m : FacetLabel)
    (L2 : List FacetLabel) (hcase : opts.casing = none)
    (h1 : ∀ l ∈ L1, (lookupA supplied l.name).isSome)
    (hm : lookupA supplied m.name = none) :
    MakeKey opts facets supplied (L1 ++ m :: L2) =
      { key := opts.prefixStr ++ renderSegs opts supplied L1 ++
          (if opts.excludeLabelTail then [] else segLabel opts m),
        fulfilled := false } := by
  unfold MakeKey
  rw [makeKeyLoop_missing opts supplied L1 m L2 opts.prefixStr 0 h1 hm]
  have hful : ((0 + L1.length == (L1 ++ m :: L2).length) : Bool) = false := by
    simp [List.length_append]
  simp only [hful, hcase]
  rcases opts.postfixStr with _ | p
  · simp
  · simp

/-- Witness for C2's amended theorem: labels `mall, building, unit`
with only `mall` supplied, under the default options. -/
theorem c2_missing_tail_witness :
    MakeKey c2Opts ["mall".data, "building".data, "unit".data]
        [("mall".data, GoVal.str "x".data)]
        ([{ name := "mall".data, label := "mall".data }] ++
          { name := "building".data, label := "building".data } ::
          [{ name := "unit".data, label := "unit".data }]) =
      { key := c2Opts.prefixStr ++
          renderSegs c2Opts [("mall".data, GoVal.str "x".data)]
            [{ name := "mall".data, label := "mall".data }] ++
          (if c2Opts.excludeLabelTail then [] else
            segLabel c2Opts { name := "building".data, label := "building".data }),
        fulfilled := false } :=
  c2_missing_tail c2Opts ["mall".data, "building".data, "unit".data]
    [("mall".data, GoVal.str "x".data)]
    [{ name := "mall".data, label := "mall".data }]
    { name := "building".data, label := "building".data }
    [{ name := "unit".data, label := "unit".data }]
    rfl (by decide) (by decide)

/- ------------------------------------------------------------------
C3 — fixed key text format
------------------------------------------------------------------ -/

theorem makeKey_all_supplied (opts : KeyOptions) (facets : List Str)
    (supplied : List (Str × GoVal)) (labels : List FacetLabel)
    (hcase : opts.casing = none) (hpost : opts.postfixStr = none)
    (h : ∀ l ∈ labels, (lookupA supplied l.name).isSome) :
    MakeKey opts facets supplied labels =
      { key := opts.prefixStr ++ renderSegs opts supplied labels, fulfilled := true } := by
  unfold MakeKey
  rw [makeKeyLoop_all opts supplied labels opts.prefixStr 0 h]
  simp [hcase, hpost]

theorem renderSegs_canonical (supplied : List (Str × GoVal)) (pfx : Str)
    (facets : List Str) :
    renderSegs (defaultKeyOpts pfx none) supplied (BuildLabels facets) =
      joinAll (facets.map (canonicalSeg supplied)) := by
  induction facets with
  | nil => simp [BuildLabels, renderSegs, joinAll]
  | cons f rest ih =>
    simp only [BuildLabels, List.map_cons, renderSegs, joinAll] at ih ⊢
    rw [ih]
    simp only [facetSeg, canonicalSeg, segLabel, defaultKeyOpts]
    rcases lookupA supplied f with _ | v <;> simp

theorem mem_buildLabels (facets : List Str) (l : FacetLabel)
    (h : l ∈ BuildLabels facets) : l.name ∈ facets := by
  induction facets with
  | nil => simp [BuildLabels] at h
  | cons f rest ih =>
    simp only [BuildLabels, List.map_cons, List.mem_cons] at h
    rcases h with h | h
    · rw [h]; simp
    · simp only [BuildLabels] at ih
      exact List.mem_cons_of_mem _ (ih h)

/-- Claim C3, counterexample.  An entity whose facet definition
configures the `upper` casing transform builds the partition key
`$SVC#MALL_X`, which does not start with the lowercased service prefix
`$svc`; with a boolean facet the rendered value is the literal `TRUE`,
not `true`. -/
theorem c3_counterexample :
    buildKeyWithType c3Schema c3FacetDef [("mall".data, GoVal.str "x".data)] false =
      .ok { key := "$SVC#MALL_X".data, fulfilled := true } ∧
    isPre "$svc".data "$SVC#MALL_X".data = false ∧
    buildKeyWithType c3Schema c3BoolFacetDef [("flag".data, GoVal.boolean true)] false =
      .ok { key := "$SVC#FLAG_TRUE".data, fulfilled := true } ∧
    containsSubstr "$SVC#FLAG_TRUE".data "true".data = false := by
  exact ⟨rfl, by decide, rfl, by decide⟩

/-- Claim C3, amended.  For every entity whose facet definition
configures no casing transform, built key text follows the fixed
format: the partition key is `$<lowercased service>` followed by the
facet segments; the sort key is `$<lowercased entity>_<version>`
followed by the facet segments, with the version segment omitted when
the version is empty; every facet segment has the form
`#<lowercased label>_<rendered value>` with the value lower-cased by
`renderKeyValue`; and boolean facet values render as the literal
strings `true` / `false`. -/
theorem c3_key_format (schema : Schema) (facetDef : FacetDefinition)
    (supplied : List (Str × GoVal))
    (hcase : facetDef.casing = none)
    (hsup : ∀ f ∈ facetDef.facets, (lookupA supplied f).isSome)
    (hver : schema.version ≠ []) :
    (buildKeyWithType schema facetDef supplied false =
      .ok { key := ('$' :: goToLower schema.service) ++
              joinAll (facetDef.facets.map (canonicalSeg supplied)),
            fulfilled := true }) ∧
    (buildKeyWithType schema facetDef supplied true =
      .ok { key := (('$' :: goToLower schema.entity) ++ '_' :: schema.version) ++
              joinAll (facetDef.facets.map (canonicalSeg supplied)),
            fulfilled := true }) ∧
    (buildKeyWithType { schema with version := [] } facetDef supplied true =
      .ok { key := ('$' :: goToLower schema.entity) ++
              joinAll (facetDef.facets.map (canonicalSeg supplied)),
            fulfilled := true }) ∧
    renderKeyValue (GoVal.boolean true) = "true".data ∧
    renderKeyValue (GoVal.boolean false) = "false".data := by
  have hlbl : ∀ l ∈ BuildLabels facetDef.facets, (lookupA supplied l.name).isSome :=
    fun l hl => hsup l.name (mem_buildLabels facetDef.facets l hl)
  refine ⟨?_, ?_, ?_, rfl, rfl⟩
  · rw [show buildKeyWithType schema facetDef supplied false =
        Except.ok (MakeKey (defaultKeyOpts (BuildPartitionKeyPfx schema.service)
          facetDef.casing) facetDef.facets supplied (BuildLabels facetDef.facets)) from rfl]
    rw [hcase]
    rw [makeKey_all_supplied _ facetDef.facets supplied (BuildLabels facetDef.facets)
      rfl rfl hlbl]
    rw [renderSegs_canonical]
    rfl
  · rw [show buildKeyWithType schema facetDef supplied true =
        Except.ok (MakeKey (defaultKeyOpts (BuildSortKeyPfx schema.entity schema.version)
          facetDef.casing) facetDef.facets supplied (BuildLabels facetDef.facets)) from rfl]
    rw [hcase]
    rw [makeKey_all_supplied _ facetDef.facets supplied (BuildLabels facetDef.facets)
      rfl rfl hlbl]
    rw [renderSegs_canonical]
    have hpfx : BuildSortKeyPfx schema.entity schema.version =
        ('$' :: goToLower schema.entity) ++ '_' :: schema.version := by
      simp [BuildSortKeyPfx, hver]
    rw [show (defaultKeyOpts (BuildSortKeyPfx schema.entity schema.version)
        none).prefixStr = BuildSortKeyPfx schema.entity schema.version from rfl, hpfx]
  · rw [show buildKeyWithType { schema with version := [] } facetDef supplied true =
        Except.ok (MakeKey (defaultKeyOpts (BuildSortKeyPfx schema.entity [])
          facetDef.casing) facetDef.facets supplied (BuildLabels facetDef.facets)) from rfl]
    rw [hcase]
    rw [makeKey_all_supplied _ facetDef.facets supplied (BuildLabels facetDef.facets)
      rfl rfl hlbl]
    rw [renderSegs_canonical]
    have hpfx : BuildSortKeyPfx schema.entity [] = '$' :: goToLower schema.entity := by
      simp [BuildSortKeyPfx]
    rw [show (defaultKeyOpts (BuildSortKeyPfx schema.entity [])
        none).prefixStr = BuildSortKeyPfx schema.entity [] from rfl, hpfx]

/-- Witness for C3's amended theorem: service `Svc`, entity `Ent`,
version `1`, one string facet and one boolean facet, no casing. -/
theorem c3_key_format_witness :
    (buildKeyWithType c3Schema
        { field := "pk".data, facets := ["mall".data, "flag".data], casing := none }
        [("mall".data, GoVal.str "X9".data), ("flag".data, GoVal.boolean true)] false =
      .ok { key := ('$' :: goToLower c3Schema.service) ++
              joinAll ((["mall".data, "flag".data] : List Str).map (canonicalSeg
                [("mall".data, GoVal.str "X9".data), ("flag".data, GoVal.boolean true)])),
            fulfilled := true }) ∧
    (buildKeyWithType c3Schema
        { field := "pk".data, facets := ["mall".data, "flag".data], casing := none }
        [("mall".data, GoVal.str "X9".data), ("flag".data, GoVal.boolean true)] true =
      .ok { key := (('$' :: goToLower c3Schema.entity) ++ '_' :: c3Schema.version) ++
              joinAll ((["mall".data, "flag".data] : List Str).map (canonicalSeg
                [("mall".data, GoVal.str "X9".data), ("flag".data, GoVal.boolean true)])),
            fulfilled := true }) ∧
    (buildKeyWithType { c3Schema with version := [] }
        { field := "pk".data, facets := ["mall".data, "flag".data], casing := none }
        [("mall".data, GoVal.str "X9".data), ("flag".data, GoVal.boolean true)] true =
      .ok { key := ('$' :: goToLower c3Schema.entity) ++
              joinAll ((["mall".data, "flag".data] : List Str).map (canonicalSeg
                [("mall".data, GoVal.str "X9".data), ("flag".data, GoVal.boolean true)])),
            fulfilled := true }) ∧
    renderKeyValue (GoVal.boolean true) = "true".data ∧
    renderKeyValue (GoVal.boolean false) = "false".data :=
  c3_key_format c3Schema
    { field := "pk".data, facets := ["mall".data, "flag".data], casing := none }
    [("mall".data, GoVal.str "X9".data), ("flag".data, GoVal.boolean true)]
    rfl (by decide) (by decide)

/- ------------------------------------------------------------------
Update-expression loop characterisations
------------------------------------------------------------------ -/

theorem setLoop_spec (ops : List (Str × GoVal)) :
    ∀ (st : UpdExprState) (first : Bool),
      (setLoop ops st first).expr =
        st.expr ++ clauseText setPartText st.counter ops.length first ∧
      (setLoop ops st first).counter = st.counter + ops.length := by
  induction ops with
  | nil => intro st first; simp [setLoop, clauseText]
  | cons hd rest ih =>
    intro st first
    obtain ⟨attr, v⟩ := hd
    have ihh := ih
      { expr := (if first then st.expr else st.expr ++ ", ".data) ++
          ("#attr".data ++ natChars st.counter) ++ " = ".data ++
          (":val".data ++ natChars st.counter),
        names := setk st.names ("#attr".data ++ natChars st.counter) attr,
        values := setk st.values (":val".data ++ natChars st.counter) (marshalAttr v),
        counter := st.counter + 1 } false
    refine ⟨?_, ?_⟩
    · rw [show setLoop ((attr, v) :: rest) st first = setLoop rest
        { expr := (if first then st.expr else st.expr ++ ", ".data) ++
            ("#attr".data ++ natChars st.counter) ++ " = ".data ++
            (":val".data ++ natChars st.counter),
          names := setk st.names ("#attr".data ++ natChars st.counter) attr,
          values := setk st.values (":val".data ++ natChars st.counter) (marshalAttr v),
          counter := st.counter + 1 } false from rfl]
      rw [ihh.1]
      simp only [List.length_cons, clauseText, setPartText]
      by_cases hf : first <;> simp [hf, List.append_assoc]
    · rw [show setLoop ((attr, v) :: rest) st first = setLoop rest
        { expr := (if first then st.expr else st.expr ++ ", ".data) ++
            ("#attr".data ++ natChars st.counter) ++ " = ".data ++
            (":val".data ++ natChars st.counter),
          names := setk st.names ("#attr".data ++ natChars st.counter) attr,
          values := setk st.values (":val".data ++ natChars st.counter) (marshalAttr v),
          counter := st.counter + 1 } false from rfl]
      rw [ihh.2]
      simp
      omega

theorem addLoop_spec (ops : List (Str × GoVal)) :
    ∀ (st : UpdExprState) (first : Bool),
      (addLoop ops st first).expr =
        st.expr ++ clauseText addPartText st.counter ops.length first ∧
      (addLoop ops st first).counter = st.counter + ops.length := by
  induction ops with
  | nil => intro st first; simp [addLoop, clauseText]
  | cons hd rest ih =>
    intro st first
    obtain ⟨attr, v⟩ := hd
    have ihh := ih
      { expr := (if first then st.expr else st.expr ++ ", ".data) ++
          ("#attr".data ++ natChars st.counter) ++ " ".data ++
          (":val".data ++ natChars st.counter),
        names := setk st.names ("#attr".data ++ natChars st.counter) attr,
        values := setk st.values (":val".data ++ natChars st.counter) (marshalAttr v),
        counter := st.counter + 1 } false
    refine ⟨?_, ?_⟩
    · rw [show addLoop ((attr, v) :: rest) st first = addLoop rest
        { expr := (if first then st.expr else st.expr ++ ", ".data) ++
            ("#attr".data ++ natChars st.counter) ++ " ".data ++
            (":val".data ++ natChars st.counter),
          names := setk st.names ("#attr".data ++ natChars st.counter) attr,
          values := setk st.values (":val".data ++ natChars st.counter) (marshalAttr v),
          counter := st.counter + 1 } false from rfl]
      rw [ihh.1]
      simp only [List.length_cons, clauseText, addPartText]
      by_cases hf : first <;> simp [hf, List.append_assoc]
    · rw [show addLoop ((attr, v) :: rest) st first = addLoop rest
        { expr := (if first then st.expr else st.expr ++ ", ".data) ++
            ("#attr".data ++ natChars st.counter) ++ " ".data ++
            (":val".data ++ natChars st.counter),
          names := setk st.names ("#attr".data ++ natChars st.counter) attr,
          values := setk st.values (":val".data ++ natChars st.counter) (marshalAttr v),
          counter := st.counter + 1 } false from rfl]
      rw [ihh.2]
      simp
      omega

theorem remLoop_spec (ops : List Str) :
    ∀ (st : UpdExprState) (first : Bool),
      (remLoop ops st first).expr =
        st.expr ++ clauseText remPartText st.counter ops.length first ∧
      (remLoop ops st first).counter = st.counter + ops.length := by
  induction ops with
  | nil => intro st first; simp [remLoop, clauseText]
  | cons attr rest ih =>
    intro st first
    have ihh := ih
      { expr := (if first then st.expr else st.expr ++ ", ".data) ++
          ("#attr".data ++ natChars st.counter),
        names := setk st.names ("#attr".data ++ natChars st.counter) attr,
        values := st.values,
        counter := st.counter + 1 } false
    refine ⟨?_, ?_⟩
    · rw [show remLoop (attr :: rest) st first = remLoop rest
        { expr := (if first then st.expr else st.expr ++ ", ".data) ++
            ("#attr".data ++ natChars st.counter),
          names := setk st.names ("#attr".data ++ natChars st.counter) attr,
          values := st.values,
          counter := st.counter + 1 } false from rfl]
      rw [ihh.1]
      simp only [List.length_cons, clauseText, remPartText]
      by_cases hf : first <;> simp [hf, List.append_assoc]
    · rw [show remLoop (attr :: rest) st first = remLoop rest
        { expr := (if first then st.expr else st.expr ++ ", ".data) ++
            ("#attr".data ++ natChars st.counter),
          names := setk st.names ("#attr".data ++ natChars st.counter) attr,
          values := st.values,
          counter := st.counter + 1 } false from rfl]
      rw [ihh.2]
      simp
      omega

/- ------------------------------------------------------------------
Character-safety and substring-count lemmas
------------------------------------------------------------------ -/

theorem natCharsAux_digits (fuel : Nat) :
    ∀ (n : Nat), ∀ ch ∈ natCharsAux fuel n, 48 ≤ ch.toNat ∧ ch.toNat ≤ 57 := by
  induction fuel with
  | zero => intro n ch h; simp [natCharsAux] at h
  | succ fuel ih =>
    intro n ch h
    rw [natCharsAux] at h
    by_cases hn : n < 10
    · simp [hn] at h
      subst h
      interval_cases n <;> decide
    · simp [hn] at h
      rcases h with h | h
      · exact ih (n / 10) ch h
      · have hr : n % 10 < 10 := Nat.mod_lt _ (by omega)
        rw [h]
        set r := n % 10 with hrdef
        interval_cases r <;> decide

theorem natChars_digits (n : Nat) : ∀ ch ∈ natChars n, 48 ≤ ch.toNat ∧ ch.toNat ≤ 57 :=
  natCharsAux_digits (n + 1) n

theorem safeChar_of_digit (ch : Char) (h : 48 ≤ ch.toNat ∧ ch.toNat ≤ 57) : safeChar ch := by
  unfold safeChar
  omega

theorem hashAttr_safe : ∀ ch ∈ "#attr".data, safeChar ch := by decide

theorem eqSep_safe : ∀ ch ∈ " = ".data, safeChar ch := by decide

theorem spSep_safe : ∀ ch ∈ " ".data, safeChar ch := by decide

theorem colonVal_safe : ∀ ch ∈ ":val".data, safeChar ch := by decide

theorem commaSep_safe : ∀ ch ∈ ", ".data, safeChar ch := by decide

theorem setPartText_safe (c : Nat) : ∀ ch ∈ setPartText c, safeChar ch := by
  intro ch h
  simp only [setPartText, List.mem_append] at h
  rcases h with ((h | h) | h) | (h | h)
  · exact hashAttr_safe ch h
  · exact safeChar_of_digit ch (natChars_digits c ch h)
  · exact eqSep_safe ch h
  · exact colonVal_safe ch h
  · exact safeChar_of_digit ch (natChars_digits c ch h)

theorem addPartText_safe (c : Nat) : ∀ ch ∈ addPartText c, safeChar ch := by
  intro ch h
  simp only [addPartText, List.mem_append] at h
  rcases h with ((h | h) | h) | (h | h)
  · exact hashAttr_safe ch h
  · exact safeChar_of_digit ch (natChars_digits c ch h)
  · exact spSep_safe ch h
  · exact colonVal_safe ch h
  · exact safeChar_of_digit ch (natChars_digits c ch h)

theorem remPartText_safe (c : Nat) : ∀ ch ∈ remPartText c, safeChar ch := by
  intro ch h
  simp only [remPartText, List.mem_append] at h
  rcases h with h | h
  · exact hashAttr_safe ch h
  · exact safeChar_of_digit ch (natChars_digits c ch h)

theorem clauseText_safe (part : Nat → Str) (hpart : ∀ c, ∀ ch ∈ part c, safeChar ch) :
    ∀ (k : Nat) (c : Nat) (first : Bool), ∀ ch ∈ clauseText part c k first, safeChar ch := by
  intro k
  induction k with
  | zero => intro c first ch h; simp [clauseText] at h
  | succ k ih =>
    intro c first ch h
    simp only [clauseText, List.mem_append] at h
    rcases h with (h | h) | h
    · by_cases hf : first
      · simp [hf] at h
      · simp only [hf, if_neg] at h
        exact commaSep_safe ch (by simpa using h)
    · exact hpart c ch h
    · exact ih (c + 1) false ch h

theorem countSubstr_cons_pre (c : Char) (s pat : Str) (h : isPre pat (c :: s) = true) :
    countSubstr (c :: s) pat = 1 + countSubstr s pat := by
  simp [countSubstr, h]

theorem countSubstr_cons_not_pre (c : Char) (s pat : Str) (h : isPre pat (c :: s) = false) :
    countSubstr (c :: s) pat = countSubstr s pat := by
  simp [countSubstr, h]

theorem countSubstr_append_ne (p0 : Char) (pr : Str) (w : Str) (hw : ∀ ch ∈ w, ch ≠ p0) :
    ∀ t : Str, countSubstr (w ++ t) (p0 :: pr) = countSubstr t (p0 :: pr) := by
  induction w with
  | nil => intro t; simp
  | cons c w' ih =>
    intro t
    have hc : c ≠ p0 := hw c (by simp)
    have hpre : isPre (p0 :: pr) (c :: (w' ++ t)) = false := by
      simp only [isPre, Bool.and_eq_false_iff]
      left
      exact beq_eq_false_iff_ne.mpr (fun hh => hc hh.symm)
    rw [List.cons_append, countSubstr_cons_not_pre _ _ _ hpre]
    exact ih (fun ch hch => hw ch (by simp [hch])) t

theorem countSubstr_append_safe (p0 : Char) (pr : Str) (w : Str)
    (hup : ¬safeChar p0) (hw : ∀ ch ∈ w, safeChar ch) :
    ∀ t : Str, countSubstr (w ++ t) (p0 :: pr) = countSubstr t (p0 :: pr) :=
  countSubstr_append_ne p0 pr w (fun ch hch heq => hup (heq ▸ hw ch hch))

theorem countSubstr_safe_eq_zero (p0 : Char) (pr : Str) (w : Str)
    (hup : ¬safeChar p0) (hw : ∀ ch ∈ w, safeChar ch) :
    countSubstr w (p0 :: pr) = 0 := by
  have := countSubstr_append_safe p0 pr w hup hw []
  simpa using this

theorem litSET : "SET ".data = 'S' :: 'E' :: 'T' :: ' ' :: [] := rfl

theorem litADD : " ADD ".data = ' ' :: 'A' :: 'D' :: 'D' :: ' ' :: [] := rfl

theorem litREM : " REMOVE ".data = ' ' :: 'R' :: 'E' :: 'M' :: 'O' :: 'V' :: 'E' :: ' ' :: [] := rfl

theorem litSETkw : "SET".data = 'S' :: 'E' :: 'T' :: [] := rfl

theorem litADDkw : "ADD".data = 'A' :: 'D' :: 'D' :: [] := rfl

theorem litDELkw : "DELETE".data = 'D' :: 'E' :: 'L' :: 'E' :: 'T' :: 'E' :: [] := rfl

theorem litREMkw : "REMOVE".data = 'R' :: 'E' :: 'M' :: 'O' :: 'V' :: 'E' :: [] := rfl

theorem count_sar_SET (S A R : Str) (hS : ∀ ch ∈ S, safeChar ch)
    (hA : ∀ ch ∈ A, safeChar ch) (hR : ∀ ch ∈ R, safeChar ch) :
    countSubstr ("SET ".data ++ (S ++ (" ADD ".data ++ (A ++ (" REMOVE ".data ++ R)))))
      "SET".data = 1 := by
  simp only [litSET, litADD, litREM, litSETkw, List.cons_append, List.nil_append]
  simp [countSubstr, isPre]
  rw [countSubstr_append_safe 'S' ('E' :: 'T' :: []) S (by decide) hS]
  simp [countSubstr, isPre]
  rw [countSubstr_append_safe 'S' ('E' :: 'T' :: []) A (by decide) hA]
  simp [countSubstr, isPre]
  rw [countSubstr_safe_eq_zero 'S' ('E' :: 'T' :: []) R (by decide) hR]

theorem count_sar_ADD (S A R : Str) (hS : ∀ ch ∈ S, safeChar ch)
    (hA : ∀ ch ∈ A, safeChar ch) (hR : ∀ ch ∈ R, safeChar ch) :
    countSubstr ("SET ".data ++ (S ++ (" ADD ".data ++ (A ++ (" REMOVE ".data ++ R)))))
      "ADD".data = 1 := by
  simp only [litSET, litADD, litREM, litADDkw, List.cons_append, List.nil_append]
  simp [countSubstr, isPre]
  rw [countSubstr_append_safe 'A' ('D' :: 'D' :: []) S (by decide) hS]
  simp [countSubstr, isPre]
  rw [countSubstr_append_safe 'A' ('D' :: 'D' :: []) A (by decide) hA]
  simp [countSubstr, isPre]
  rw [countSubstr_safe_eq_zero 'A' ('D' :: 'D' :: []) R (by decide) hR]

theorem count_sar_DELETE (S A R : Str) (hS : ∀ ch ∈ S, safeChar ch)
    (hA : ∀ ch ∈ A, safeChar ch) (hR : ∀ ch ∈ R, safeChar ch) :
    countSubstr ("SET ".data ++ (S ++ (" ADD ".data ++ (A ++ (" REMOVE ".data ++ R)))))
      "DELETE".data = 0 := by
  simp only [litSET, litADD, litREM, litDELkw, List.cons_append, List.nil_append]
  simp [countSubstr, isPre]
  rw [countSubstr_append_safe 'D' ('E' :: 'L' :: 'E' :: 'T' :: 'E' :: []) S (by decide) hS]
  simp [countSubstr, isPre]
  rw [countSubstr_append_safe 'D' ('E' :: 'L' :: 'E' :: 'T' :: 'E' :: []) A (by decide) hA]
  simp [countSubstr, isPre]
  rw [countSubstr_safe_eq_zero 'D' ('E' :: 'L' :: 'E' :: 'T' :: 'E' :: []) R (by decide) hR]

theorem count_sar_REMOVE (S A R : Str) (hS : ∀ ch ∈ S, safeChar ch)
    (hA : ∀ ch ∈ A, safeChar ch) (hR : ∀ ch ∈ R, safeChar ch) :
    countSubstr ("SET ".data ++ (S ++ (" ADD ".data ++ (A ++ (" REMOVE ".data ++ R)))))
      "REMOVE".data = 1 := by
  simp only [litSET, litADD, litREM, litREMkw, List.cons_append, List.nil_append]
  simp [countSubstr, isPre]
  rw [countSubstr_append_safe 'R' ('E' :: 'M' :: 'O' :: 'V' :: 'E' :: []) S (by decide) hS]
  simp [countSubstr, isPre]
  rw [countSubstr_append_safe 'R' ('E' :: 'M' :: 'O' :: 'V' :: 'E' :: []) A (by decide) hA]
  simp [countSubstr, isPre]
  rw [countSubstr_safe_eq_zero 'R' ('E' :: 'M' :: 'O' :: 'V' :: 'E' :: []) R (by decide) hR]

theorem setLoop_expr (ops : List (Str × GoVal)) (st : UpdExprState) (first : Bool) :
    (setLoop ops st first).expr = st.expr ++ clauseText setPartText st.counter ops.length first :=
  (setLoop_spec ops st first).1

theorem setLoop_counter (ops : List (Str × GoVal)) (st : UpdExprState) (first : Bool) :
    (setLoop ops st first).counter = st.counter + ops.length :=
  (setLoop_spec ops st first).2

theorem addLoop_expr (ops : List (Str × GoVal)) (st : UpdExprState) (first : Bool) :
    (addLoop ops st first).expr = st.expr ++ clauseText addPartText st.counter ops.length first :=
  (addLoop_spec ops st first).1

theorem addLoop_counter (ops : List (Str × GoVal)) (st : UpdExprState) (first : Bool) :
    (addLoop ops st first).counter = st.counter + ops.length :=
  (addLoop_spec ops st first).2

theorem remLoop_expr (ops : List Str) (st : UpdExprState) (first : Bool) :
    (remLoop ops st first).expr = st.expr ++ clauseText remPartText st.counter ops.length first :=
  (remLoop_spec ops st first).1

theorem buildUpdateExpression_sar (s a : List (Str × GoVal)) (r : List Str)
    (hs : s ≠ []) (ha : a ≠ []) (hr : r ≠ []) :
    (buildUpdateExpression s a [] r [] [] [] []).expr =
      "SET ".data ++ (clauseText setPartText 0 s.length true ++ (" ADD ".data ++
        (clauseText addPartText s.length a.length true ++ (" REMOVE ".data ++
          clauseText remPartText (s.length + a.length) r.length true)))) := by
  simp only [buildUpdateExpression, appendLoop, prependLoop, subtractLoop, dataLoop]
  rw [if_pos hs, if_pos ha, if_pos hr,
    if_neg (show ¬(([] : List (Str × GoVal)) ≠ []) from fun h => h rfl)]
  simp only [setLoop_expr, setLoop_counter, addLoop_expr, addLoop_counter, remLoop_expr]
  simp [List.append_assoc]

theorem keysOf_map_entry {β γ : Type} (l : List (Str × β)) (g : Str → β → γ) :
    keysOf (l.map fun kv => (kv.1, g kv.1 kv.2)) = keysOf l := by
  induction l with
  | nil => simp [keysOf]
  | cons hd tl ih => simp [keysOf, ih]

theorem mergeAssoc_nil_of_nodup {α : Type} (l : List (Str × α))
    (h : (keysOf l).Nodup) : mergeAssoc [] l = l := by
  have := mergeAssoc_disjoint l [] h (by intro k _; simp [keysOf])
  simpa using this

/- ------------------------------------------------------------------
C4 — one SET, one ADD, one REMOVE clause, fixed order
------------------------------------------------------------------ -/

/-- Claim C4.  For every update compiled with Set, Add and Remove
operations (on a schema without automatic timestamps, with a buildable
key and passing read-only validation), the rendered update expression
is exactly the SET clause, the ADD clause and the REMOVE clause — each
keyword rendered once followed by the comma-separated list of its own
operations — concatenated with single spaces in the fixed order SET,
ADD, DELETE, REMOVE: the keyword SET occurs exactly once, ADD exactly
once, REMOVE exactly once and DELETE not at all. -/
theorem c4_update_clauses (now : Int) (schema : Schema) (keys : Item)
    (setOps addOps : List (Str × GoVal)) (remOps : List Str) (km : List (Str × AV))
    (ht : schema.timestamps = none)
    (hs : setOps ≠ []) (ha : addOps ≠ []) (hr : remOps ≠ [])
    (hnds : (keysOf setOps).Nodup) (hnda : (keysOf addOps).Nodup)
    (hkey : buildGetItemKey schema keys = .ok km)
    (hval : ValidateUpdateOperations schema.attributes setOps addOps [] remOps = .ok ()) :
    ∃ p, buildUpdateItemParams now schema keys setOps addOps [] remOps [] [] [] [] = .ok p ∧
      p.updateExpr =
        "SET ".data ++ (clauseText setPartText 0 setOps.length true ++ (" ADD ".data ++
          (clauseText addPartText setOps.length addOps.length true ++ (" REMOVE ".data ++
            clauseText remPartText (setOps.length + addOps.length) remOps.length true)))) ∧
      countSubstr p.updateExpr "SET".data = 1 ∧
      countSubstr p.updateExpr "ADD".data = 1 ∧
      countSubstr p.updateExpr "DELETE".data = 0 ∧
      countSubstr p.updateExpr "REMOVE".data = 1 := by
  have htA : ApplyUpdateTimestamps now setOps schema = setOps := by
    simp [ApplyUpdateTimestamps, ht]
  have hset1 : (ApplySetTransformations schema.attributes setOps addOps []).1 =
      setOps.map fun kv => (kv.1, applySetTransformEntry schema.attributes kv.1 kv.2) := by
    simp only [ApplySetTransformations]
    exact mergeAssoc_nil_of_nodup _ (by rw [keysOf_map_entry]; exact hnds)
  have hadd1 : (ApplySetTransformations schema.attributes setOps addOps []).2.1 =
      addOps.map fun kv => (kv.1, applyAddDelTransformEntry schema.attributes kv.1 kv.2) := by
    simp only [ApplySetTransformations]
    exact mergeAssoc_nil_of_nodup _ (by rw [keysOf_map_entry]; exact hnda)
  have hdel1 : (ApplySetTransformations schema.attributes setOps addOps []).2.2 = [] := by
    simp [ApplySetTransformations, mergeAssoc]
  have hres : buildUpdateItemParams now schema keys setOps addOps [] remOps [] [] [] [] =
      .ok { key := km,
            updateExpr := (buildUpdateExpression
              (setOps.map fun kv => (kv.1, applySetTransformEntry schema.attributes kv.1 kv.2))
              (addOps.map fun kv => (kv.1, applyAddDelTransformEntry schema.attributes kv.1 kv.2))
              [] remOps [] [] [] []).expr,
            names := (buildUpdateExpression
              (setOps.map fun kv => (kv.1, applySetTransformEntry schema.attributes kv.1 kv.2))
              (addOps.map fun kv => (kv.1, applyAddDelTransformEntry schema.attributes kv.1 kv.2))
              [] remOps [] [] [] []).names,
            values := (buildUpdateExpression
              (setOps.map fun kv => (kv.1, applySetTransformEntry schema.attributes kv.1 kv.2))
              (addOps.map fun kv => (kv.1, applyAddDelTransformEntry schema.attributes kv.1 kv.2))
              [] remOps [] [] [] []).values,
            returnValues := "ALL_NEW".data } := by
    unfold buildUpdateItemParams
    rw [hkey]
    dsimp only
    rw [htA, hval]
    dsimp only
    rw [hset1, hadd1, hdel1]
  have hsar := buildUpdateExpression_sar
    (setOps.map fun kv => (kv.1, applySetTransformEntry schema.attributes kv.1 kv.2))
    (addOps.map fun kv => (kv.1, applyAddDelTransformEntry schema.attributes kv.1 kv.2))
    remOps (by simpa using hs) (by simpa using ha) hr
  rw [List.length_map, List.length_map] at hsar
  have hSsafe := clauseText_safe setPartText setPartText_safe setOps.length 0 true
  have hAsafe := clauseText_safe addPartText addPartText_safe addOps.length setOps.length true
  have hRsafe := clauseText_safe remPartText remPartText_safe remOps.length
    (setOps.length + addOps.length) true
  have hup : ∃ p, buildUpdateItemParams now schema keys setOps addOps [] remOps [] [] [] [] =
      .ok p ∧ p.updateExpr = (buildUpdateExpression
        (setOps.map fun kv => (kv.1, applySetTransformEntry schema.attributes kv.1 kv.2))
        (addOps.map fun kv => (kv.1, applyAddDelTransformEntry schema.attributes kv.1 kv.2))
        [] remOps [] [] [] []).expr := ⟨_, hres, rfl⟩
  obtain ⟨p, hp, hpe⟩ := hup
  refine ⟨p, hp, ?_, ?_, ?_, ?_, ?_⟩
  · rw [hpe, hsar]
  · rw [hpe, hsar]
    exact count_sar_SET _ _ _ hSsafe hAsafe hRsafe
  · rw [hpe, hsar]
    exact count_sar_ADD _ _ _ hSsafe hAsafe hRsafe
  · rw [hpe, hsar]
    exact count_sar_DELETE _ _ _ hSsafe hAsafe hRsafe
  · rw [hpe, hsar]
    exact count_sar_REMOVE _ _ _ hSsafe hAsafe hRsafe

/-- Witness for C4 at a concrete update: `Set a = 1`, `Add b 2`,
`Remove r` against `updSchema`. -/
theorem c4_update_clauses_witness :
    ∃ p, buildUpdateItemParams 0 updSchema updKeys
        [("a".data, GoVal.num 1)] [("b".data, GoVal.num 2)] [] ["r".data] [] [] [] [] =
        .ok p ∧
      p.updateExpr =
        "SET ".data ++ (clauseText setPartText 0
          ([("a".data, GoVal.num 1)] : List (Str × GoVal)).length true ++ (" ADD ".data ++
          (clauseText addPartText ([("a".data, GoVal.num 1)] : List (Str × GoVal)).length
            ([("b".data, GoVal.num 2)] : List (Str × GoVal)).length true ++ (" REMOVE ".data ++
            clauseText remPartText
              (([("a".data, GoVal.num 1)] : List (Str × GoVal)).length +
                ([("b".data, GoVal.num 2)] : List (Str × GoVal)).length)
              (["r".data] : List Str).length true)))) ∧
      countSubstr p.updateExpr "SET".data = 1 ∧
      countSubstr p.updateExpr "ADD".data = 1 ∧
      countSubstr p.updateExpr "DELETE".data = 0 ∧
      countSubstr p.updateExpr "REMOVE".data = 1 :=
  c4_update_clauses 0 updSchema updKeys [("a".data, GoVal.num 1)] [("b".data, GoVal.num 2)]
    ["r".data] updKeyMap rfl (by decide) (by decide) (by decide) (by decide) (by decide)
    rfl rfl

/- ------------------------------------------------------------------
C5 — list-append / prepend / subtract must extend the SET clause
------------------------------------------------------------------ -/

/-- Claim C5, failing evaluation.  For the update `Set a = 1`,
`Remove r`, `Append l x`, the compiled expression is
`SET #attr0 = :val0 REMOVE #attr1, #attr2 = list_append(#attr2, :val2)`:
the append's SET-kind assignment is attached with `, ` to the end of
the REMOVE clause instead of the SET clause, because the source only
tests `contains(updateExpr, "SET")` and then appends at the end of the
whole expression.  The claim (and the source's own comment,
`using list_append in SET clause`) requires the assignment to extend
the SET clause. -/
theorem c5_append_lands_in_remove_clause :
    (buildUpdateItemParams 0 updSchema updKeys [("a".data, GoVal.num 1)] [] []
        ["r".data] [("l".data, GoVal.str "x".data)] [] [] []).map
      (fun p => p.updateExpr) =
      .ok "SET #attr0 = :val0 REMOVE #attr1, #attr2 = list_append(#attr2, :val2)".data ∧
    (buildUpdateItemParams 0 updSchema updKeys [("a".data, GoVal.num 1)] [] []
        ["r".data] [] [("l".data, GoVal.str "x".data)] [] []).map
      (fun p => p.updateExpr) =
      .ok "SET #attr0 = :val0 REMOVE #attr1, #attr2 = list_append(:val2, #attr2)".data ∧
    (buildUpdateItemParams 0 updSchema updKeys [("a".data, GoVal.num 1)] [] []
        ["r".data] [] [] [("b".data, GoVal.num 5)] []).map
      (fun p => p.updateExpr) =
      .ok "SET #attr0 = :val0 REMOVE #attr1, #attr2 = #attr2 - :val2".data := by
  exact ⟨rfl, rfl, rfl⟩

/- ------------------------------------------------------------------
C6 — read-only checks cover only four of the eight buckets
------------------------------------------------------------------ -/

/-- Claim C6, counterexample.  An update whose append bucket targets
the read-only attribute `ro` succeeds and produces parameters (the
prepend and subtract buckets behave the same): `ValidateUpdateOperations`
never sees the append/prepend/subtract/remove-list-index buckets, so no
ReadOnlyViolation is raised. -/
theorem c6_counterexample :
    (buildUpdateItemParams 0 updSchema updKeys [] [] [] []
        [("ro".data, GoVal.str "x".data)] [] [] []).map (fun p => p.updateExpr) =
      .ok "SET #attr0 = list_append(#attr0, :val0)".data ∧
    (buildUpdateItemParams 0 updSchema updKeys [] [] [] [] []
        [("ro".data, GoVal.str "x".data)] [] []).map (fun p => p.updateExpr) =
      .ok "SET #attr0 = list_append(:val0, #attr0)".data ∧
    (buildUpdateItemParams 0 updSchema updKeys [] [] [] [] [] []
        [("ro".data, GoVal.num 1)] []).map (fun p => p.updateExpr) =
      .ok "SET #attr0 = #attr0 - :val0".data ∧
    (buildUpdateItemParams 0 updSchema updKeys [] [] [] [] [] [] []
        [("ro".data, [2])]).map (fun p => p.updateExpr) =
      .ok "REMOVE #attr0[2]".data := by
  exact ⟨rfl, rfl, rfl, rfl⟩

theorem isReadOnlyAttr_none (attrs : List (Str × AttributeDefinition)) (n : Str)
    (h : lookupA attrs n = none) : isReadOnlyAttr attrs n = false := by
  unfold isReadOnlyAttr
  rw [h]

theorem isReadOnlyAttr_some (attrs : List (Str × AttributeDefinition)) (n : Str)
    (attr : AttributeDefinition) (h : lookupA attrs n = some attr) :
    isReadOnlyAttr attrs n = attr.readOnly := by
  unfold isReadOnlyAttr
  rw [h]

theorem checkReadOnlyBucket_code (attrs : List (Str × AttributeDefinition))
    (ops : List (Str × GoVal)) (verb : Str) :
    checkReadOnlyBucket attrs ops verb = .ok () ∨
      ∃ e, checkReadOnlyBucket attrs ops verb = .error e ∧
        e.code = "ReadOnlyViolation".data := by
  induction ops with
  | nil => left; rfl
  | cons hd rest ih =>
    obtain ⟨name, v⟩ := hd
    rw [checkReadOnlyBucket]
    rcases hl : lookupA attrs name with _ | attr
    · exact ih
    · by_cases hro : attr.readOnly
      · right
        exact ⟨NewElectroError "ReadOnlyViolation".data
          ("Attribute '".data ++ name ++ "' is read-only and cannot be ".data ++ verb),
          by simp [hro], rfl⟩
      · simp only [hro, if_false]
        exact ih

theorem checkReadOnlyBucket_err (attrs : List (Str × AttributeDefinition))
    (ops : List (Str × GoVal)) (verb : Str)
    (h : ∃ kv ∈ ops, isReadOnlyAttr attrs kv.1 = true) :
    ∃ e, checkReadOnlyBucket attrs ops verb = .error e ∧
      e.code = "ReadOnlyViolation".data := by
  induction ops with
  | nil =>
    obtain ⟨kv, hkv, _⟩ := h
    exact absurd hkv (List.not_mem_nil kv)
  | cons hd rest ih =>
    obtain ⟨name, v⟩ := hd
    rw [checkReadOnlyBucket]
    rcases hl : lookupA attrs name with _ | attr
    · apply ih
      rcases h with ⟨kv, hkv, hro⟩
      rcases List.mem_cons.mp hkv with heq | hmem
      · subst heq
        rw [isReadOnlyAttr_none attrs name hl] at hro
        exact absurd hro (by decide)
      · exact ⟨kv, hmem, hro⟩
    · by_cases hro : attr.readOnly
      · exact ⟨NewElectroError "ReadOnlyViolation".data
          ("Attribute '".data ++ name ++ "' is read-only and cannot be ".data ++ verb),
          by simp [hro], rfl⟩
      · simp only [hro, if_false]
        apply ih
        rcases h with ⟨kv, hkv, hkro⟩
        rcases List.mem_cons.mp hkv with heq | hmem
        · subst heq
          rw [isReadOnlyAttr_some attrs name attr hl] at hkro
          exact absurd hkro hro
        · exact ⟨kv, hmem, hkro⟩

theorem checkReadOnlyNames_err (attrs : List (Str × AttributeDefinition))
    (ops : List Str) (h : ∃ n ∈ ops, isReadOnlyAttr attrs n = true) :
    ∃ e, checkReadOnlyNames attrs ops = .error e ∧
      e.code = "ReadOnlyViolation".data := by
  induction ops with
  | nil =>
    obtain ⟨n, hn, _⟩ := h
    exact absurd hn (List.not_mem_nil n)
  | cons name rest ih =>
    rw [checkReadOnlyNames]
    rcases hl : lookupA attrs name with _ | attr
    · apply ih
      rcases h with ⟨n, hn, hro⟩
      rcases List.mem_cons.mp hn with heq | hmem
      · rw [heq, isReadOnlyAttr_none attrs name hl] at hro
        exact absurd hro (by decide)
      · exact ⟨n, hmem, hro⟩
    · by_cases hro : attr.readOnly
      · exact ⟨NewElectroError "ReadOnlyViolation".data
          ("Attribute '".data ++ name ++ "' is read-only and cannot be removed".data),
          by simp [hro], rfl⟩
      · simp only [hro, if_false]
        apply ih
        rcases h with ⟨n, hn, hkro⟩
        rcases List.mem_cons.mp hn with heq | hmem
        · rw [heq, isReadOnlyAttr_some attrs name attr hl] at hkro
          exact absurd hkro hro
        · exact ⟨n, hmem, hkro⟩

theorem validateUpdateOperations_err (attrs : List (Str × AttributeDefinition))
    (setOps addOps delOps : List (Str × GoVal)) (remOps : List Str)
    (h : (∃ kv ∈ setOps, isReadOnlyAttr attrs kv.1 = true) ∨
         (∃ kv ∈ addOps, isReadOnlyAttr attrs kv.1 = true) ∨
         (∃ kv ∈ delOps, isReadOnlyAttr attrs kv.1 = true) ∨
         (∃ n ∈ remOps, isReadOnlyAttr attrs n = true)) :
    ∃ e, ValidateUpdateOperations attrs setOps addOps delOps remOps = .error e ∧
      e.code = "ReadOnlyViolation".data := by
  unfold ValidateUpdateOperations
  rcases h with h | h | h | h
  · obtain ⟨e, he, hc⟩ := checkReadOnlyBucket_err attrs setOps "updated".data h
    exact ⟨e, by rw [he], hc⟩
  · rcases checkReadOnlyBucket_code attrs setOps "updated".data with h1 | ⟨e, he, hc⟩
    · rw [h1]
      obtain ⟨e, he, hc⟩ := checkReadOnlyBucket_err attrs addOps "updated".data h
      exact ⟨e, by rw [he], hc⟩
    · exact ⟨e, by rw [he], hc⟩
  · rcases checkReadOnlyBucket_code attrs setOps "updated".data with h1 | ⟨e, he, hc⟩
    · rw [h1]
      rcases checkReadOnlyBucket_code attrs addOps "updated".data with h2 | ⟨e, he, hc⟩
      · rw [h2]
        obtain ⟨e, he, hc⟩ := checkReadOnlyBucket_err attrs delOps "updated".data h
        exact ⟨e, by rw [he], hc⟩
      · exact ⟨e, by rw [he], hc⟩
    · exact ⟨e, by rw [he], hc⟩
  · rcases checkReadOnlyBucket_code attrs setOps "updated".data with h1 | ⟨e, he, hc⟩
    · rw [h1]
      rcases checkReadOnlyBucket_code attrs addOps "updated".data with h2 | ⟨e, he, hc⟩
      · rw [h2]
        rcases checkReadOnlyBucket_code attrs delOps "updated".data with h3 | ⟨e, he, hc⟩
        · rw [h3]
          exact checkReadOnlyNames_err attrs remOps h
        · exact ⟨e, by rw [he], hc⟩
      · exact ⟨e, by rw [he], hc⟩
    · exact ⟨e, by rw [he], hc⟩

/-- Claim C6, amended.  Read-only checks run over exactly the SET, ADD,
set-DELETE and REMOVE buckets of the update intent: whenever any of
those four buckets targets an attribute declared read-only in the
catalog (and the key builds, with no automatic timestamps),
`BuildUpdateItemParams` fails with a ReadOnlyViolation error and
produces no parameter structure.  The list-append, list-prepend,
numeric-subtract and remove-list-index buckets are never checked (see
the counterexample). -/
theorem c6_readonly_buckets (now : Int) (schema : Schema) (keys : Item)
    (setOps addOps delOps : List (Str × GoVal)) (remOps : List Str)
    (appendOps prependOps subtractOps : List (Str × GoVal))
    (dataOps : List (Str × List Int)) (km : List (Str × AV))
    (ht : schema.timestamps = none)
    (hkey : buildGetItemKey schema keys = .ok km)
    (hro : (∃ kv ∈ setOps, isReadOnlyAttr schema.attributes kv.1 = true) ∨
           (∃ kv ∈ addOps, isReadOnlyAttr schema.attributes kv.1 = true) ∨
           (∃ kv ∈ delOps, isReadOnlyAttr schema.attributes kv.1 = true) ∨
           (∃ n ∈ remOps, isReadOnlyAttr schema.attributes n = true)) :
    ∃ e, buildUpdateItemParams now schema keys setOps addOps delOps remOps
        appendOps prependOps subtractOps dataOps = .error e ∧
      e.code = "ReadOnlyViolation".data := by
  have htA : ApplyUpdateTimestamps now setOps schema = setOps := by
    simp [ApplyUpdateTimestamps, ht]
  obtain ⟨e, he, hc⟩ := validateUpdateOperations_err schema.attributes setOps addOps
    delOps remOps hro
  refine ⟨e, ?_, hc⟩
  unfold buildUpdateItemParams
  rw [hkey]
  dsimp only
  rw [htA, he]

/-- Witness for C6's amended theorem: `Set ro = x` on the read-only
attribute `ro` of `updSchema` fails with ReadOnlyViolation. -/
theorem c6_readonly_buckets_witness :
    ∃ e, buildUpdateItemParams 0 updSchema updKeys
        [("ro".data, GoVal.str "x".data)] [] [] [] [] [] [] [] = .error e ∧
      e.code = "ReadOnlyViolation".data :=
  c6_readonly_buckets 0 updSchema updKeys [("ro".data, GoVal.str "x".data)] [] [] []
    [] [] [] [] updKeyMap rfl rfl
    (Or.inl ⟨("ro".data, GoVal.str "x".data), by decide, by decide⟩)

/- ------------------------------------------------------------------
C7 — enum/validation failures are swallowed during update compilation
------------------------------------------------------------------ -/

/-- Claim C7, failing evaluation.  Setting the enum attribute `status`
to `bogus` — a value `validateEnum` rejects with InvalidEnumValue —
produces a parameter structure anyway, with the offending original
value marshalled into the value table: `ApplySetTransformations`
swallows the enum failure and silently substitutes the original value
instead of propagating the error (the write path,
`ValidateAndTransformForWrite`, does propagate it). -/
theorem c7_enum_violation_swallowed :
    (buildUpdateItemParams 0 updSchema updKeys
        [("status".data, GoVal.str "bogus".data)] [] [] [] [] [] [] []).map
      (fun p => (p.updateExpr, p.values)) =
      .ok ("SET #attr0 = :val0".data, [(":val0".data, AV.S "bogus".data)]) ∧
    validateEnum "status".data (GoVal.str "bogus".data)
        [GoVal.str "active".data, GoVal.str "inactive".data] =
      .error (NewElectroError "InvalidEnumValue".data
        ("Attribute '".data ++ "status".data ++ "' has invalid enum value '".data ++
          fmtV (GoVal.str "bogus".data) ++ "'".data)) ∧
    ValidateAndTransformForWrite updSchema.attributes
        [("status".data, GoVal.str "bogus".data)] true =
      .error (NewElectroError "InvalidEnumValue".data
        ("Attribute '".data ++ "status".data ++ "' has invalid enum value '".data ++
          fmtV (GoVal.str "bogus".data) ++ "'".data)) := by
  exact ⟨rfl, rfl, rfl⟩

/- ------------------------------------------------------------------
C8 — cursor round trip
------------------------------------------------------------------ -/

mutual

theorem rtAV (v : AV) (h : claimOK v = true) :
    interfaceToAttributeValue (attributeValueToInterface v) = .ok v := by
  match v with
  | .S s =>
    rw [show attributeValueToInterface (.S s) = .obj [("S".data, .str s)] from rfl]
    rw [interfaceToAttributeValue]
    simp [tagStr, lookupA]
  | .N s =>
    rw [show attributeValueToInterface (.N s) = .obj [("N".data, .str s)] from rfl]
    rw [interfaceToAttributeValue]
    simp [tagStr, lookupA]
  | .BOOL b =>
    rw [show attributeValueToInterface (.BOOL b) = .obj [("BOOL".data, .boolean b)] from rfl]
    rw [interfaceToAttributeValue]
    simp [tagStr, tagBool, lookupA]
  | .B bs => simp [claimOK] at h
  | .NULL b => simp [claimOK] at h
  | .SS l => simp [claimOK] at h
  | .NS l => simp [claimOK] at h
  | .BS l => simp [claimOK] at h
  | .M kvs =>
    have h1 : claimOKPairs kvs = true := by
      rw [claimOK] at h
      exact h
    rw [show attributeValueToInterface (.M kvs) =
      .obj [("M".data, .obj (encodeMapEntries kvs))] from rfl]
    rw [interfaceToAttributeValue]
    simp [tagStr, tagBool, tagArr, tagObj, lookupA]
    rw [rtMap kvs h1]
  | .L l =>
    have h1 : claimOKList l = true := by
      rw [claimOK] at h
      exact h
    rw [show attributeValueToInterface (.L l) =
      .obj [("L".data, .arr (encodeListEntries l))] from rfl]
    rw [interfaceToAttributeValue]
    simp [tagStr, tagBool, tagArr, tagObj, lookupA]
    rw [rtList l h1]

theorem rtMap (l : List (Str × AV)) (h : claimOKPairs l = true) :
    decodeMapEntries (encodeMapEntries l) = .ok l := by
  match l with
  | [] => rw [show encodeMapEntries [] = [] from rfl, decodeMapEntries]
  | (k, v) :: rest =>
    rw [claimOKPairs, Bool.and_eq_true] at h
    rw [show encodeMapEntries ((k, v) :: rest) =
      (k, attributeValueToInterface v) :: encodeMapEntries rest from rfl]
    rw [decodeMapEntries]
    rw [rtAV v h.1, rtMap rest h.2]

theorem rtList (l : List AV) (h : claimOKList l = true) :
    decodeListEntries (encodeListEntries l) = .ok l := by
  match l with
  | [] => rw [show encodeListEntries [] = [] from rfl, decodeListEntries]
  | v :: rest =>
    rw [claimOKList, Bool.and_eq_true] at h
    rw [show encodeListEntries (v :: rest) =
      attributeValueToInterface v :: encodeListEntries rest from rfl]
    rw [decodeListEntries]
    rw [rtAV v h.1, rtList rest h.2]

end

theorem encodeMapEntries_eq_map (l : List (Str × AV)) :
    encodeMapEntries l = l.map fun kv => (kv.1, attributeValueToInterface kv.2) := by
  induction l with
  | nil => rfl
  | cons hd rest ih =>
    obtain ⟨k, v⟩ := hd
    rw [show encodeMapEntries ((k, v) :: rest) =
      (k, attributeValueToInterface v) :: encodeMapEntries rest from rfl, ih]
    rfl

theorem decodeCursorEntries_eq (l : List (Str × GoJson)) :
    decodeCursorEntries l = decodeMapEntries l := by
  induction l with
  | nil =>
    rw [decodeMapEntries]
    rfl
  | cons hd rest ih =>
    obtain ⟨k, v⟩ := hd
    rw [decodeCursorEntries, decodeMapEntries, ih]

/-- Claim C8.  For every resume point whose typed values are strings,
numeric strings, booleans, or nested maps/lists of those,
`decodeCursor (encodeCursor resumePoint)` recovers the resume point
exactly; an empty resume point encodes to the empty cursor string, and
the empty cursor string decodes to the empty (no-cursor) result
without error. -/
theorem c8_cursor_roundtrip (rp : List (Str × AV)) (h : claimOKPairs rp = true) :
    decodeCursor (encodeCursor rp) = .ok rp ∧
    encodeCursor [] = Cursor.empty ∧
    decodeCursor Cursor.empty = .ok [] := by
  refine ⟨?_, rfl, rfl⟩
  match rp with
  | [] => rfl
  | hd :: rest =>
    rw [show encodeCursor (hd :: rest) =
      .enc ((hd :: rest).map fun kv => (kv.1, attributeValueToInterface kv.2)) from rfl]
    rw [show decodeCursor (.enc ((hd :: rest).map fun kv =>
      (kv.1, attributeValueToInterface kv.2))) = decodeCursorEntries ((hd :: rest).map
        fun kv => (kv.1, attributeValueToInterface kv.2)) from rfl]
    rw [decodeCursorEntries_eq, ← encodeMapEntries_eq_map]
    exact rtMap (hd :: rest) h

/-- Witness for C8 at a nested concrete resume point. -/
theorem c8_cursor_roundtrip_witness :
    decodeCursor (encodeCursor
      [("pk".data, AV.S "$a#b".data), ("n".data, AV.N "42".data),
       ("m".data, AV.M [("inner".data, AV.BOOL true),
         ("deep".data, AV.M [("q".data, AV.S "v".data)])]),
       ("l".data, AV.L [AV.S "z".data, AV.N "7".data, AV.L [AV.BOOL false]])]) =
      .ok [("pk".data, AV.S "$a#b".data), ("n".data, AV.N "42".data),
       ("m".data, AV.M [("inner".data, AV.BOOL true),
         ("deep".data, AV.M [("q".data, AV.S "v".data)])]),
       ("l".data, AV.L [AV.S "z".data, AV.N "7".data, AV.L [AV.BOOL false]])] ∧
    encodeCursor [] = Cursor.empty ∧
    decodeCursor Cursor.empty = .ok [] :=
  c8_cursor_roundtrip
    [("pk".data, AV.S "$a#b".data), ("n".data, AV.N "42".data),
     ("m".data, AV.M [("inner".data, AV.BOOL true),
       ("deep".data, AV.M [("q".data, AV.S "v".data)])]),
     ("l".data, AV.L [AV.S "z".data, AV.N "7".data, AV.L [AV.BOOL false]])]
    (by simp [claimOKPairs, claimOK, claimOKList])

/- ------------------------------------------------------------------
C9 — sort-key condition rendering and the synthesized begins_with
------------------------------------------------------------------ -/

theorem buildQueryParams_common (schema : Schema) (indexName : Str) (pkFacets : List GoVal)
    (index : IndexDefinition) (skDef : FacetDefinition) (pkKey : KeyResult)
    (hidx : lookupA schema.indexes indexName = some index)
    (hsk : index.sk = some skDef)
    (hpk : buildKey schema index.pk (mergeAssoc [] (index.pk.facets.zip pkFacets)) = .ok pkKey)
    (hful : pkKey.fulfilled = true) :
    ∀ sc, buildQueryParams schema indexName pkFacets sc = .ok
      { keyCondition := (renderSortKeyCondition schema skDef sc
          (index.pk.field ++ " = :pk".data) [(":pk".data, AV.S pkKey.key)]).1,
        values := (renderSortKeyCondition schema skDef sc
          (index.pk.field ++ " = :pk".data) [(":pk".data, AV.S pkKey.key)]).2,
        indexNameOut := index.index } := by
  intro sc
  unfold buildQueryParams
  rw [hidx]
  dsimp only
  rw [hpk]
  dsimp only
  rw [if_pos hful, hsk]

/-- Claim C9.  For every query against an index with a sort key whose
partition key is fulfilled: with no explicit sort-key condition the
compiled key condition appends a synthesized
`begins_with(<sk field>, :sk)` whose operand is the entity's own
sort-key prefix `$<lowercased entity>_<version>` followed, when the
index defines sort facets, by `#<lowercased first facet label>_`; with
an explicit condition (`=`, `>`, `>=`, `<`, `<=`, `BETWEEN`,
`begins_with`) that condition is rendered instead. -/
theorem c9_sort_key_condition (schema : Schema) (indexName : Str) (pkFacets : List GoVal)
    (index : IndexDefinition) (skDef : FacetDefinition) (pkKey : KeyResult)
    (vs : List GoVal)
    (hidx : lookupA schema.indexes indexName = some index)
    (hsk : index.sk = some skDef)
    (hpk : buildKey schema index.pk (mergeAssoc [] (index.pk.facets.zip pkFacets)) = .ok pkKey)
    (hful : pkKey.fulfilled = true)
    (hver : schema.version ≠ []) :
    (buildQueryParams schema indexName pkFacets none = .ok
      { keyCondition := (index.pk.field ++ " = :pk".data) ++ " AND begins_with(".data ++
          skDef.field ++ ", :sk)".data,
        values := setk [(":pk".data, AV.S pkKey.key)] ":sk".data (AV.S
          (match skDef.facets with
           | [] => BuildSortKeyPfx schema.entity schema.version
           | f :: _ =>
             BuildSortKeyPfx schema.entity schema.version ++ ('#' :: goToLower f) ++ ['_'])),
        indexNameOut := index.index }) ∧
    BuildSortKeyPfx schema.entity schema.version =
      ('$' :: goToLower schema.entity) ++ '_' :: schema.version ∧
    (buildQueryParams schema indexName pkFacets
        (some { operation := "=".data, values := vs }) = .ok
      { keyCondition := (index.pk.field ++ " = :pk".data) ++ " AND ".data ++
          skDef.field ++ " = :sk".data,
        values := setk [(":pk".data, AV.S pkKey.key)] ":sk".data
          (AV.S (fmtV (vs.getD 0 (.str [])))),
        indexNameOut := index.index }) ∧
    (buildQueryParams schema indexName pkFacets
        (some { operation := ">".data, values := vs }) = .ok
      { keyCondition := (index.pk.field ++ " = :pk".data) ++ " AND ".data ++
          skDef.field ++ " > :sk".data,
        values := setk [(":pk".data, AV.S pkKey.key)] ":sk".data
          (AV.S (fmtV (vs.getD 0 (.str [])))),
        indexNameOut := index.index }) ∧
    (buildQueryParams schema indexName pkFacets
        (some { operation := ">=".data, values := vs }) = .ok
      { keyCondition := (index.pk.field ++ " = :pk".data) ++ " AND ".data ++
          skDef.field ++ " >= :sk".data,
        values := setk [(":pk".data, AV.S pkKey.key)] ":sk".data
          (AV.S (fmtV (vs.getD 0 (.str [])))),
        indexNameOut := index.index }) ∧
    (buildQueryParams schema indexName pkFacets
        (some { operation := "<".data, values := vs }) = .ok
      { keyCondition := (index.pk.field ++ " = :pk".data) ++ " AND ".data ++
          skDef.field ++ " < :sk".data,
        values := setk [(":pk".data, AV.S pkKey.key)] ":sk".data
          (AV.S (fmtV (vs.getD 0 (.str [])))),
        indexNameOut := index.index }) ∧
    (buildQueryParams schema indexName pkFacets
        (some { operation := "<=".data, values := vs }) = .ok
      { keyCondition := (index.pk.field ++ " = :pk".data) ++ " AND ".data ++
          skDef.field ++ " <= :sk".data,
        values := setk [(":pk".data, AV.S pkKey.key)] ":sk".data
          (AV.S (fmtV (vs.getD 0 (.str [])))),
        indexNameOut := index.index }) ∧
    (buildQueryParams schema indexName pkFacets
        (some { operation := "BETWEEN".data, values := vs }) = .ok
      { keyCondition := (index.pk.field ++ " = :pk".data) ++ " AND ".data ++
          skDef.field ++ " BETWEEN :sk1 AND :sk2".data,
        values := setk (setk [(":pk".data, AV.S pkKey.key)] ":sk1".data
          (AV.S (fmtV (vs.getD 0 (.str []))))) ":sk2".data
          (AV.S (fmtV (vs.getD 1 (.str [])))),
        indexNameOut := index.index }) ∧
    (buildQueryParams schema indexName pkFacets
        (some { operation := "begins_with".data, values := vs }) = .ok
      { keyCondition := (index.pk.field ++ " = :pk".data) ++ " AND begins_with(".data ++
          skDef.field ++ ", :sk)".data,
        values := setk [(":pk".data, AV.S pkKey.key)] ":sk".data
          (AV.S (fmtV (vs.getD 0 (.str [])))),
        indexNameOut := index.index }) := by
  have hc := buildQueryParams_common schema indexName pkFacets index skDef pkKey
    hidx hsk hpk hful
  refine ⟨?_, by simp [BuildSortKeyPfx, hver], ?_, ?_, ?_, ?_, ?_, ?_, ?_⟩
  · rw [hc none]
    rfl
  · rw [hc _]
    rfl
  · rw [hc _]
    rfl
  · rw [hc _]
    rfl
  · rw [hc _]
    rfl
  · rw [hc _]
    rfl
  · rw [hc _]
    rfl
  · rw [hc _]
    rfl

/-- Witness for C9 at the concrete entity `qrySchema`: the
unconstrained sort key of the primary index synthesizes
`begins_with(sk, "$ent_1#x_")`. -/
theorem c9_sort_key_condition_witness :
    buildQueryParams qrySchema "primary".data [GoVal.str "A".data] none = .ok
      { keyCondition := (("pk".data : Str) ++ " = :pk".data) ++ " AND begins_with(".data ++
          "sk".data ++ ", :sk)".data,
        values := setk [(":pk".data, AV.S "$svc#id_a".data)] ":sk".data (AV.S
          (match (["x".data] : List Str) with
           | [] => BuildSortKeyPfx qrySchema.entity qrySchema.version
           | f :: _ =>
             BuildSortKeyPfx qrySchema.entity qrySchema.version ++ ('#' :: goToLower f) ++ ['_'])),
        indexNameOut := none } :=
  (c9_sort_key_condition qrySchema "primary".data [GoVal.str "A".data]
    { index := none, pk := { field := "pk".data, facets := ["id".data] },
      sk := some { field := "sk".data, facets := ["x".data] } }
    { field := "sk".data, facets := ["x".data] }
    { key := "$svc#id_a".data, fulfilled := true }
    [GoVal.str "p".data, GoVal.str "q".data]
    rfl rfl rfl rfl (by decide)).1

/- ------------------------------------------------------------------
C10 — put attaches every index's keys, sort keys only when fulfilled
------------------------------------------------------------------ -/

theorem keysOf_append {α : Type} (a b : List (Str × α)) :
    keysOf (a ++ b) = keysOf a ++ keysOf b := by
  induction a with
  | nil => simp [keysOf]
  | cons hd tl ih =>
    obtain ⟨k, v⟩ := hd
    simp [keysOf, ih]

theorem buildKeyWithType_ok (schema : Schema) (fd : FacetDefinition) (item : Item)
    (isSortKey : Bool) :
    buildKeyWithType schema fd item isSortKey = .ok (keyResultOf schema fd item isSortKey) := rfl

theorem addKeysToItemLoop_spec (schema : Schema) (item : Item)
    (indexes : List (Str × IndexDefinition)) :
    ∀ result : Item, (allKeyFields indexes).Nodup →
      (∀ f ∈ allKeyFields indexes, f ∉ keysOf result) →
      addKeysToItemLoop schema item indexes result =
        .ok (result ++ keyEntriesFor schema item indexes) := by
  induction indexes with
  | nil =>
    intro result _ _
    simp [addKeysToItemLoop, keyEntriesFor]
  | cons hd rest ih =>
    intro result hnd hfr
    obtain ⟨nm, idx⟩ := hd
    rw [addKeysToItemLoop]
    rw [show buildKey schema idx.pk item = .ok (keyResultOf schema idx.pk item false) from rfl]
    dsimp only
    rcases hsk : idx.sk with _ | skDef
    · dsimp only
      have hfields : allKeyFields ((nm, idx) :: rest) = idx.pk.field :: allKeyFields rest := by
        simp [allKeyFields, hsk]
      rw [hfields] at hnd hfr
      have hpkf : idx.pk.field ∉ keysOf result := hfr idx.pk.field (by simp)
      rw [setk_not_mem _ _ _ hpkf]
      rw [ih (result ++ [(idx.pk.field, GoVal.str (keyResultOf schema idx.pk item false).key)])
        (by simp only [List.nodup_cons] at hnd; exact hnd.2) ?_]
      · simp [keyEntriesFor, hsk]
      · intro f hf
        rw [keysOf_append]
        simp only [List.mem_append]
        rintro (hbad | hbad)
        · exact hfr f (by simp [hf]) hbad
        · simp [keysOf] at hbad
          rw [hbad] at hf
          simp at hnd
          exact hnd.1 hf
    · dsimp only
      rw [buildKeyWithType_ok]
      dsimp only
      have hfields : allKeyFields ((nm, idx) :: rest) =
          idx.pk.field :: skDef.field :: allKeyFields rest := by
        simp [allKeyFields, hsk]
      rw [hfields] at hnd hfr
      have hpkf : idx.pk.field ∉ keysOf result := hfr idx.pk.field (by simp)
      have hskf : skDef.field ∉ keysOf result := hfr skDef.field (by simp)
      simp only [List.nodup_cons, List.mem_cons] at hnd
      push_neg at hnd
      by_cases hful : (keyResultOf schema skDef item true).fulfilled = true
      · rw [if_pos hful]
        rw [setk_not_mem _ _ _ hpkf]
        have hskf1 : skDef.field ∉
            keysOf (result ++ [(idx.pk.field, GoVal.str (keyResultOf schema idx.pk item false).key)]) := by
          rw [keysOf_append]
          simp only [List.mem_append]
          rintro (hbad | hbad)
          · exact hskf hbad
          · simp [keysOf] at hbad
            exact hnd.1.1 hbad.symm
        rw [setk_not_mem _ _ _ hskf1]
        rw [ih ((result ++ [(idx.pk.field, GoVal.str (keyResultOf schema idx.pk item false).key)]) ++
            [(skDef.field, GoVal.str (keyResultOf schema skDef item true).key)])
          hnd.2.2 ?_]
        · simp [keyEntriesFor, hsk, hful]
        · intro f hf
          rw [keysOf_append, keysOf_append]
          simp only [List.mem_append]
          rintro ((hbad | hbad) | hbad)
          · exact hfr f (by simp [hf]) hbad
          · simp [keysOf] at hbad
            rw [hbad] at hf
            exact hnd.1.2 hf
          · simp [keysOf] at hbad
            rw [hbad] at hf
            exact hnd.2.1 hf
      · rw [if_neg hful]
        rw [setk_not_mem _ _ _ hpkf]
        rw [ih (result ++ [(idx.pk.field, GoVal.str (keyResultOf schema idx.pk item false).key)])
          hnd.2.2 ?_]
        · simp [keyEntriesFor, hsk, hful]
        · intro f hf
          rw [keysOf_append]
          simp only [List.mem_append]
          rintro (hbad | hbad)
          · exact hfr f (by simp [hf]) hbad
          · simp [keysOf] at hbad
            rw [hbad] at hf
            exact hnd.1.2 hf

/-- Claim C10.  For every item passing required-attribute validation
and every schema whose index key fields are pairwise distinct and do
not occur in the item, `addKeysToItem` succeeds (no error is raised
even for an unfulfilled secondary-index key) and returns the item
extended with exactly: every index's partition-key field carrying the
built (possibly unfulfilled, truncated) key string, and each index's
sort-key field carrying its key string only when that key is
fulfilled. -/
theorem c10_put_key_attachment (schema : Schema) (item : Item)
    (hreq : validateRequiredAttributes schema.attributes item = .ok ())
    (hnd : (allKeyFields schema.indexes).Nodup)
    (hfresh : ∀ f ∈ allKeyFields schema.indexes, f ∉ keysOf item) :
    addKeysToItem schema item = .ok (item ++ keyEntriesFor schema item schema.indexes) := by
  unfold addKeysToItem
  exact addKeysToItemLoop_spec schema item schema.indexes item hnd hfresh

/-- Witness for C10: the item `{id: "1"}` against `qrySchema` receives
`pk` and the fulfilled `sk`, plus the truncated, unfulfilled GSI
partition key `gsi1pk = "$svc#g_"`, while the unfulfilled `gsi1sk` is
not attached — all without error. -/
theorem c10_put_key_attachment_witness :
    addKeysToItem qrySchema [("id".data, GoVal.str "1".data)] =
      .ok ([("id".data, GoVal.str "1".data)] ++
        keyEntriesFor qrySchema [("id".data, GoVal.str "1".data)] qrySchema.indexes) :=
  c10_put_key_attachment qrySchema [("id".data, GoVal.str "1".data)]
    rfl (by decide) (by decide)

end GoElectroDB
